import Mathlib

/-!
# A verification model of the SCRVS Solidity scanner core

This development gives a shallow embedding of the scanner's core
(`solidity_scanner/parser.py`, the four detectors under
`solidity_scanner/detectors/`, and `calculate_score` from
`solidity_scanner/cli.py`) and proves properties of it.

Conventions of the embedding:
* Text is modelled as `List Char`; a Python string `s` corresponds to
  `s.data`.  Source lines are the result of `splitLines`, the model of
  Python's `source.split("\n")`.
* Each Python regular expression used by the code is modelled by a
  dedicated scanner written out explicitly.  Where the regex engine's
  backtracking can matter, the scanner reproduces the backtracking order
  (longest-first for greedy groups, option-first for `(?:...)?` groups);
  where greedy matching is forced (for example a `\w+` group followed by
  a token that can never start with a word character), the scanner
  commits to the maximal run, which is what the regex engine does.
* `Finding` keeps the fields the detectors compute from their input
  (severity, title, file path, line number, function name).  The long
  fixed prose fields (`description`, `recommendation`, `reference`) and
  `code_snippet` are inert report text and are not modelled.
* Brace characters inside string literals are written with the escapes
  `\x7b` and `\x7d`.
-/

set_option maxRecDepth 100000

namespace SCRVS

/-- Character class of Python's `\w` (ASCII range; the scanned sources are
ASCII). -/
def isWordChar (c : Char) : Bool :=
  ('a' ≤ c && c ≤ 'z') || ('A' ≤ c && c ≤ 'Z') || ('0' ≤ c && c ≤ '9') || c = '_'

/-- Character class of Python's `\s` (ASCII range). -/
def isWs (c : Char) : Bool :=
  c = ' ' || c = '\t' || c = '\n' || c = '\r' || c = '\x0b' || c = '\x0c'

/-- Character class of Python's `\d` (ASCII range). -/
def isDigit (c : Char) : Bool :=
  '0' ≤ c && c ≤ '9'

/-- Does `cs` start with the literal `pat`? -/
def startsWithL : List Char → List Char → Bool
  | [], _ => true
  | _ :: _, [] => false
  | p :: ps, c :: cs => p = c && startsWithL ps cs

/-- Match the literal `pat` at the front of `cs`, returning the rest. -/
def lit? (pat cs : List Char) : Option (List Char) :=
  if startsWithL pat cs then some (cs.drop pat.length) else none

/-- Python's substring containment `pat in cs`. -/
def containsSub (pat : List Char) : List Char → Bool
  | [] => startsWithL pat []
  | c :: cs => startsWithL pat (c :: cs) || containsSub pat cs

/-- Python's `str.find`: index of the first occurrence of `pat`, if any. -/
def findSub? (pat : List Char) : List Char → Option Nat
  | [] => if startsWithL pat [] then some 0 else none
  | c :: cs =>
    if startsWithL pat (c :: cs) then some 0
    else (findSub? pat cs).map (· + 1)

/-- `\s*`: drop leading whitespace. -/
def wsDrop (cs : List Char) : List Char := cs.dropWhile isWs

/-- `\s+` followed by further greedy whitespace: require at least one
whitespace character, then drop the whole run. -/
def ws1? : List Char → Option (List Char)
  | c :: cs => if isWs c then some (cs.dropWhile isWs) else none
  | [] => none

/-- Model of Python's `source.split("\n")` (auxiliary, with accumulator). -/
def splitLinesAux : List Char → List Char → List (List Char)
  | [], acc => [acc.reverse]
  | c :: cs, acc =>
    if c = '\n' then acc.reverse :: splitLinesAux cs []
    else splitLinesAux cs (c :: acc)

/-- Model of Python's `source.split("\n")`. -/
def splitLines (s : List Char) : List (List Char) := splitLinesAux s []

/-- Model of Python's `"\n".join(lines)`. -/
def joinNl : List (List Char) → List Char
  | [] => []
  | [l] => l
  | l :: ls => l ++ '\n' :: joinNl ls

/-- Generic model of `re.finditer` for a pattern scanner `m` that, on a
match at the head of its input, returns the rest of the input after the
match.  Returns the list of match start offsets, continuing each search
at the end of the previous match (advancing at least one character).
The structural `fuel` argument (initialised to the input length by
`findAll`) only forces termination: every recursive call consumes at
least one character and exactly one unit of fuel, so the fuel is never
exhausted before the input is. -/
def findAllAux (m : List Char → Option (List Char)) : Nat → List Char → Nat → List Nat
  | 0, _, _ => []
  | _ + 1, [], _ => []
  | fuel + 1, c :: cs, p =>
    match m (c :: cs) with
    | some rest =>
      p :: findAllAux m fuel ((c :: cs).drop (max ((c :: cs).length - rest.length) 1))
        (p + max ((c :: cs).length - rest.length) 1)
    | none => findAllAux m fuel cs (p + 1)

/-- All match start offsets of `m` in `cs` (`re.finditer`). -/
def findAll (m : List Char → Option (List Char)) (cs : List Char) : List Nat :=
  findAllAux m cs.length cs 0

/-- Model of `re.search` when only existence of a match matters. -/
def searchB (m : List Char → Option (List Char)) : List Char → Bool
  | [] => (m []).isSome
  | c :: cs => (m (c :: cs)).isSome || searchB m cs

/-- Model of `re.search` when the leftmost match's data is needed. -/
def firstMatch? (m : List Char → Option α) : List Char → Option α
  | [] => m []
  | c :: cs =>
    match m (c :: cs) with
    | some a => some a
    | none => firstMatch? m cs

/-! ## Pattern scanners for the regexes of `parser.py` and the detectors -/

/-- `\.(call|send|transfer|delegatecall)(\s*\{[^}]*\})?\s*\(` from
`ReentrancyDetector._check_missing_guard`.  The four alternatives start
with distinct characters, so the alternation never backtracks; the
optional value-clause group is tried first and, on failure of the
trailing `\s*\(`, retried without the group, as the regex engine does. -/
def extCallGuardM (cs : List Char) : Option (List Char) := do
  let a ← lit? ['.'] cs
  let b ← match lit? "call".data a with
    | some r => some r
    | none => match lit? "send".data a with
      | some r => some r
      | none => match lit? "transfer".data a with
        | some r => some r
        | none => lit? "delegatecall".data a
  match (do
      let u ← lit? ['\x7b'] (wsDrop b)
      let v ← lit? ['\x7d'] (u.dropWhile (fun c => c ≠ '\x7d'))
      lit? ['('] (wsDrop v)) with
  | some r => some r
  | none => lit? ['('] (wsDrop b)

/-- `\.call\s*\{value:` (CEI call pattern 1). -/
def ceiCallValueBraceM (cs : List Char) : Option (List Char) := do
  let a ← lit? ".call".data cs
  lit? ('\x7b' :: "value:".data) (wsDrop a)

/-- `\.call\s*\(` (CEI call pattern 2). -/
def callParenM (cs : List Char) : Option (List Char) := do
  let a ← lit? ".call".data cs
  lit? ['('] (wsDrop a)

/-- `\.call\.value\s*\(` (CEI call pattern 3, also the deprecated
`call.value` pattern). -/
def callDotValueM (cs : List Char) : Option (List Char) := do
  let a ← lit? ".call.value".data cs
  lit? ['('] (wsDrop a)

/-- `\.send\s*\(` (CEI call pattern 4, also deprecated `send`). -/
def sendParenM (cs : List Char) : Option (List Char) := do
  let a ← lit? ".send".data cs
  lit? ['('] (wsDrop a)

/-- `\.transfer\s*\(` (CEI call pattern 5, also deprecated `transfer`). -/
def transferParenM (cs : List Char) : Option (List Char) := do
  let a ← lit? ".transfer".data cs
  lit? ['('] (wsDrop a)

/-- Character offsets of all CEI external-call matches in a function
body, collected pattern by pattern in the order of
`ReentrancyDetector._check_cei_violation`'s `call_patterns` list. -/
def ceiCallPositions (body : List Char) : List Nat :=
  findAll ceiCallValueBraceM body ++
  findAll callParenM body ++
  findAll callDotValueM body ++
  findAll sendParenM body ++
  findAll transferParenM body

/-- Tail of the state-write pattern after the variable name:
`\s*(?:\[[^\]]*\])?\s*[-+]?=`.  If the optional index group matches, a
failing tail cannot be rescued by dropping the group (the tail would
then have to match at the `[`), so the scanner commits to it. -/
def writeTail? (cs : List Char) : Option (List Char) :=
  let a := wsDrop cs
  let b := match (do
      let u ← lit? ['['] a
      lit? [']'] (u.dropWhile (fun c => c ≠ ']'))) with
    | some v => wsDrop v
    | none => a
  match b with
  | '-' :: rest => lit? ['='] rest
  | '+' :: rest => lit? ['='] rest
  | _ => lit? ['='] b

/-- `\b<var>\s*(?:\[[^\]]*\])?\s*[-+]?=` at the head of the input (the
`\b` is checked by the caller, which tracks the preceding character). -/
def writeMatch (var cs : List Char) : Option (List Char) := do
  let a ← lit? var cs
  writeTail? a

/-- All match offsets of the state-write pattern for one variable.
`bOk` records whether the previous character allows a `\b` boundary
before a word character (true at the start of the body); the fuel (one
unit and at least one character per step) only forces termination. -/
def findWritesAux (var : List Char) : Nat → List Char → Nat → Bool → List Nat
  | 0, _, _, _ => []
  | _ + 1, [], _, _ => []
  | fuel + 1, c :: cs, p, bOk =>
    match (if bOk then writeMatch var (c :: cs) else none) with
    | some rest =>
      p :: findWritesAux var fuel
        ((c :: cs).drop (max ((c :: cs).length - rest.length) 1))
        (p + max ((c :: cs).length - rest.length) 1)
        (match ((c :: cs).take (max ((c :: cs).length - rest.length) 1)).getLast? with
         | some ch => !isWordChar ch
         | none => bOk)
    | none => findWritesAux var fuel cs (p + 1) (!isWordChar c)

/-- Offsets of state-write matches for one variable in a body. -/
def findWrites (var body : List Char) : List Nat :=
  findWritesAux var body.length body 0 true

/-- `(var_name, offset)` pairs for every declared state variable, in
declaration order, as collected by `_check_cei_violation`. -/
def writePositions (varNames : List (List Char)) (body : List Char) :
    List (List Char × Nat) :=
  varNames.flatMap (fun v => (findWrites v body).map (fun p => (v, p)))

/-- `=\s*[^=]` from the `has_state_change` checks.  With backtracking
over the `\s*` group this matches exactly when some `=` is immediately
followed by a character other than `=` (a whitespace character is itself
a valid `[^=]`, so the zero-width `\s*` alternative decides). -/
def hasAssign : List Char → Bool
  | [] => false
  | a :: rest =>
    (match rest with
     | [] => false
     | b :: _ => a = '=' && b ≠ '=') || hasAssign rest

/-- `require\s*\(.*msg\.sender`: `.` does not cross newlines, so
`msg.sender` must occur after the `(` on the same line. -/
def requireMsgSenderM (cs : List Char) : Option (List Char) := do
  let a ← lit? "require".data cs
  let b ← lit? ['('] (wsDrop a)
  if containsSub "msg.sender".data (b.takeWhile (fun c => c ≠ '\n')) then
    some b
  else
    none

/-- `re.search(r'require\s*\(.*msg\.sender', body)` as a Bool. -/
def hasRequireMsgSender (body : List Char) : Bool :=
  searchB requireMsgSenderM body

/-- `(require|revert|assert)\s*\(` from
`ValidationDetector._check_missing_validation`. -/
def validationCallM (cs : List Char) : Option (List Char) := do
  let a ← match lit? "require".data cs with
    | some r => some r
    | none => match lit? "revert".data cs with
      | some r => some r
      | none => lit? "assert".data cs
  lit? ['('] (wsDrop a)

/-- `\.(call|send|transfer)\s*\(`, the external-call half of
`has_state_change` in `_check_missing_validation`. -/
def callSendTransferM (cs : List Char) : Option (List Char) := do
  let a ← lit? ['.'] cs
  let b ← match lit? "call".data a with
    | some r => some r
    | none => match lit? "send".data a with
      | some r => some r
      | none => lit? "transfer".data a
  lit? ['('] (wsDrop b)

/-- `function\s+\w+\s*\([^)]+\w+[^)]*\)`, the `has_params` pattern:
after the parameter-list `(`, the characters before the first `)` must
contain a word character at an index ≥ 1, and the `)` must exist. -/
def hasParamsM (cs : List Char) : Option (List Char) := do
  let a ← lit? "function".data cs
  let b ← ws1? a
  match b with
  | c :: _ =>
    if isWordChar c then do
      let d ← lit? ['('] (wsDrop (b.dropWhile isWordChar))
      let inner := d.takeWhile (fun x => x ≠ ')')
      let e ← lit? [')'] (d.drop inner.length)
      if inner.length ≥ 2 && (inner.drop 1).any isWordChar then some e else none
    else none
  | [] => none

/-- `re.sub(r"//.*?$", "", body, flags=re.MULTILINE)`: delete from each
`//` to the end of its line, keeping the newline.  Fuel as in
`findAllAux` (each step consumes at least one character). -/
def stripLineCommentsAux : Nat → List Char → List Char
  | 0, _ => []
  | _ + 1, [] => []
  | fuel + 1, '/' :: '/' :: rest =>
    stripLineCommentsAux fuel (rest.dropWhile (fun c => c ≠ '\n'))
  | fuel + 1, c :: cs => c :: stripLineCommentsAux fuel cs

/-- `re.sub(r"//.*?$", "", body, flags=re.MULTILINE)`. -/
def stripLineComments (cs : List Char) : List Char :=
  stripLineCommentsAux cs.length cs

/-- `re.sub(r"/\*.*?\*/", "", body, flags=re.DOTALL)`: delete each
`/*` up to the nearest following `*/`; a `/*` with no later `*/` matches
nothing (and then no later opener can match either).  Fuel as in
`findAllAux`. -/
def stripBlockCommentsAux : Nat → List Char → List Char
  | 0, _ => []
  | _ + 1, [] => []
  | fuel + 1, '/' :: '*' :: rest =>
    (match findSub? "*/".data rest with
     | some i => stripBlockCommentsAux fuel (rest.drop (i + 2))
     | none => '/' :: '*' :: rest)
  | fuel + 1, c :: cs => c :: stripBlockCommentsAux fuel cs

/-- `re.sub(r"/\*.*?\*/", "", body, flags=re.DOTALL)`. -/
def stripBlockComments (cs : List Char) : List Char :=
  stripBlockCommentsAux cs.length cs

/-- Comment stripping of `_check_missing_validation`: line comments
first, then block comments. -/
def stripComments (cs : List Char) : List Char :=
  stripBlockComments (stripLineComments cs)

/-- `(\w+)\s*<op>\s*(\w+)` for an arithmetic operator `op`: at a word
character, the maximal identifier run, optional whitespace, the
operator, optional whitespace, then at least one word character (the
match extends over the maximal second run). -/
def arithM (op : Char) (cs : List Char) : Option (List Char) :=
  match cs with
  | c :: _ =>
    if isWordChar c then do
      let a ← lit? [op] (wsDrop (cs.dropWhile isWordChar))
      let b := wsDrop a
      match b with
      | d :: _ => if isWordChar d then some (b.dropWhile isWordChar) else none
      | [] => none
    else none
  | [] => none

/-- All match offsets of the arithmetic pattern for one operator. -/
def arithPositions (op : Char) (body : List Char) : List Nat :=
  findAll (arithM op) body

/-- `block\.timestamp`, `block\.number`, `block\.difficulty`,
`msg\.data|msg\.sender|abi\.decode` and similar escaped-dot alternations
are plain substring tests. -/
def containsAny (pats : List (List Char)) (cs : List Char) : Bool :=
  pats.any (fun p => containsSub p cs)

/-- `blockhash\s*\(` from `_check_insecure_randomness`. -/
def blockhashParenM (cs : List Char) : Option (List Char) := do
  let a ← lit? "blockhash".data cs
  lit? ['('] (wsDrop a)

/-- `emit\s+\w+\s*\(` from `_check_missing_events`. -/
def emitEventM (cs : List Char) : Option (List Char) := do
  let a ← lit? "emit".data cs
  let b ← ws1? a
  match b with
  | c :: _ =>
    if isWordChar c then lit? ['('] (wsDrop (b.dropWhile isWordChar)) else none
  | [] => none

/-- `require\s*\(` (used in `_check_unchecked_returns` and
`has_require_check`). -/
def requireParenM (cs : List Char) : Option (List Char) := do
  let a ← lit? "require".data cs
  lit? ['('] (wsDrop a)

/-- `\.delegatecall\s*\(` from `InsecureCallsDetector._check_delegatecall`. -/
def delegatecallParenM (cs : List Char) : Option (List Char) := do
  let a ← lit? ".delegatecall".data cs
  lit? ['('] (wsDrop a)

/-- `(\w+)\.(call|send|delegatecall)\s*\(` from
`_check_unchecked_returns`; the match starts at the identifier. -/
def identCallM (cs : List Char) : Option (List Char) :=
  match cs with
  | c :: _ =>
    if isWordChar c then do
      let a ← lit? ['.'] (cs.dropWhile isWordChar)
      let b ← match lit? "call".data a with
        | some r => some r
        | none => match lit? "send".data a with
          | some r => some r
          | none => lit? "delegatecall".data a
      lit? ['('] (wsDrop b)
    else none
  | [] => none

/-- `\(bool\s+\w+` from `_check_unchecked_returns`. -/
def boolCaptureM (cs : List Char) : Option (List Char) := do
  let a ← lit? "(bool".data cs
  let b ← ws1? a
  match b with
  | c :: _ => if isWordChar c then some (b.dropWhile isWordChar) else none
  | [] => none

/-- `\btx\.origin\b` for one line of source
(`BadPatternsDetector._check_tx_origin`): an occurrence of `tx.origin`
preceded by a non-word character (or the line start) and followed by a
non-word character (or the line end). -/
def txOriginAux : List Char → Bool → Bool
  | [], _ => false
  | c :: cs, bOk =>
    (bOk && startsWithL "tx.origin".data (c :: cs) &&
      (match (c :: cs).drop 9 with
       | [] => true
       | d :: _ => !isWordChar d)) ||
    txOriginAux cs (!isWordChar c)

/-- `re.search(r'\btx\.origin\b', line)` as a Bool. -/
def hasTxOrigin (line : List Char) : Bool := txOriginAux line true

/-! ## Data model (`parser.py` dataclasses) -/

/-- `FunctionNode` from `parser.py` (the unused `parameters`/`returns`
fields, which the parser never populates, are not modelled). -/
structure FunctionNode where
  name : List Char
  visibility : String
  is_payable : Bool
  is_view : Bool
  is_pure : Bool
  modifiers : List (List Char)
  line_start : Nat
  line_end : Nat
  body : List Char
deriving DecidableEq, Repr

/-- `StateVariable` from `parser.py`. -/
structure StateVariable where
  name : List Char
  type : List Char
  visibility : String
  line_number : Nat
deriving DecidableEq, Repr

/-- `ContractInfo` from `parser.py`. -/
structure ContractInfo where
  name : List Char
  functions : List FunctionNode
  state_variables : List StateVariable
  modifiers : List (List Char)
  line_start : Nat
  line_end : Nat
deriving DecidableEq, Repr

/-- `Finding` from `detectors/base.py`.  The fixed prose payload fields
(`description`, `code_snippet`, `recommendation`, `reference`) are inert
report text and are not modelled. -/
structure Finding where
  severity : String
  title : String
  file_path : String
  line_number : Nat
  function_name : List Char
deriving DecidableEq, Repr

/-! ## The structural parser (`SolidityParser`) -/

/-- One step of the character-level brace scan shared by
`_extract_contracts` and `_extract_function_body`: process a line's
characters with depth `d` and started-flag `st`; `none` means the scan
closed at this line (a `}` brought the depth to zero after a `{` had
been seen), otherwise the updated state is returned. -/
def charStep? : List Char → Int → Bool → Option (Int × Bool)
  | [], d, st => some (d, st)
  | c :: cs, d, st =>
    if c = '\x7b' then charStep? cs (d + 1) true
    else if c = '\x7d' then
      if st && d - 1 = 0 then none else charStep? cs (d - 1) st
    else charStep? cs d st

/-- Line-level brace scan of `_extract_contracts`: `some j` is the
1-based line where the span closes.  A line that ends with the depth
back at zero without the closing `}` having triggered (only possible via
a `}` before the first `{` on one line) makes the Python loop `break`
without recording, which is `none` here. -/
def braceEndAux : List (List Char) → Nat → Int → Bool → Option Nat
  | [], _, _, _ => none
  | l :: rest, j, d, st =>
    match charStep? l d st with
    | none => some j
    | some (d', st') =>
      if st' && d' = 0 then none else braceEndAux rest (j + 1) d' st'

/-- Brace scan from the first line of `ls`, which carries line number
`startLine`. -/
def braceEnd? (ls : List (List Char)) (startLine : Nat) : Option Nat :=
  braceEndAux ls startLine 0 false

/-- Try prefixes of the leading word run of `t`, longest first (the
regex engine's backtracking order for a greedy `(\w+)` group), accepting
the first one whose remainder satisfies `ok`. -/
def longestSplit (t : List Char) (ok : List Char → Bool) : Nat → Option (List Char)
  | 0 => none
  | k + 1 =>
    if ok (t.drop (k + 1)) then some (t.take (k + 1)) else longestSplit t ok k

/-- `is\s+[\w\s,]+` followed by `\s*\{`, given the text right after the
literal `is`: at least one whitespace, then (since `\s` and `,` are in
the class and the class excludes `{`) the maximal `[\w\s,]` run must
have length ≥ 2 and be followed by `{`. -/
def isClauseOk (t : List Char) : Bool :=
  match t with
  | c :: _ =>
    isWs c &&
      (decide ((t.takeWhile (fun x => isWordChar x || isWs x || x = ',')).length ≥ 2) &&
        startsWithL ['\x7b'] (t.drop (t.takeWhile (fun x => isWordChar x || isWs x || x = ',')).length))
  | [] => false

/-- The part of the contract pattern after the name:
`\s*(?:is\s+[\w\s,]+)?\s*\{`. -/
def contractPostName (s : List Char) : Bool :=
  (match lit? "is".data (s.dropWhile isWs) with
   | some t => isClauseOk t
   | none => false) ||
  startsWithL ['\x7b'] (s.dropWhile isWs)

/-- `contract\s+(\w+)\s*(?:is\s+[\w\s,]+)?\s*\{` at the head of the
input, returning the captured name.  The name group backtracks from the
maximal word run (e.g. in `contract Ais B{` the name is `A`). -/
def contractNameAt (cs : List Char) : Option (List Char) := do
  let a ← lit? "contract".data cs
  let b ← ws1? a
  longestSplit b contractPostName (b.takeWhile isWordChar).length

/-- The function-signature pattern of `_extract_functions`:
`function\s+(\w+)\s*\([^)]*\)\s*(?:public|private|internal|external)?`
`\s*(?:payable|view|pure)?\s*(?:returns\s*\([^)]*\))?\s*(?:[^{]*)?\{`.
Because the trailing `(?:[^{]*)?` absorbs arbitrary non-`{` text, the
pattern matches exactly when `function`, whitespace, a word, optional
whitespace, `(`, non-`)` characters, `)` are followed by some later `{`.
Returns the captured name. -/
def functionNameAt (cs : List Char) : Option (List Char) := do
  let a ← lit? "function".data cs
  let b ← ws1? a
  match b with
  | c :: _ =>
    if isWordChar c then do
      let d ← lit? ['('] (wsDrop (b.dropWhile isWordChar))
      let e ← lit? [')'] (d.dropWhile (fun x => x ≠ ')'))
      if e.any (fun x => x = '\x7b') then some (b.takeWhile isWordChar) else none
    else none
  | [] => none

/-- `_extract_function_properties`: raw substring containment on the
signature line, with the visibility keywords tried in the order
`public`, `private`, `internal`, `external` (default `public`).
Returns `(visibility, is_payable, is_view, is_pure)`. -/
def extractFunctionProperties (line : List Char) : String × Bool × Bool × Bool :=
  (if containsSub "public".data line then "public"
   else if containsSub "private".data line then "private"
   else if containsSub "internal".data line then "internal"
   else if containsSub "external".data line then "external"
   else "public",
   containsSub "payable".data line,
   containsSub "view".data line,
   containsSub "pure".data line)

/-- Identifier-start characters of `[a-zA-Z_]`. -/
def isIdentStart (c : Char) : Bool :=
  ('a' ≤ c && c ≤ 'z') || ('A' ≤ c && c ≤ 'Z') || c = '_'

/-- `re.findall(r"\b([a-zA-Z_][a-zA-Z0-9_]*)\b", s)`: the maximal word
runs that start with a letter or underscore (a run starting with a digit
has no `\b` inside it and yields nothing). -/
def identTokensAux : Nat → List Char → List (List Char)
  | 0, _ => []
  | _ + 1, [] => []
  | fuel + 1, c :: cs =>
    if isWordChar c then
      (if isIdentStart c then [c :: cs.takeWhile isWordChar] else []) ++
        identTokensAux fuel (cs.dropWhile isWordChar)
    else identTokensAux fuel cs

/-- `re.findall(r"\b([a-zA-Z_][a-zA-Z0-9_]*)\b", s)` (fuel as in
`findAllAux`). -/
def identTokens (cs : List Char) : List (List Char) :=
  identTokensAux cs.length cs

/-- The keyword set excluded from modifier tokens in
`_parse_modifiers_from_signature` (the keywords removed by the `re.sub`
step form a subset, and since the removal is `\b`-bounded it never
merges adjacent identifiers, so removal-then-tokenise equals
tokenise-then-filter). -/
def modifierExcluded : List (List Char) :=
  ["function".data, "public".data, "private".data, "internal".data,
   "external".data, "payable".data, "view".data, "pure".data, "returns".data]

/-- `_parse_modifiers_from_signature`: take the text after the first
`)` (requiring its index to be positive, as `line.find(")") > 0` does),
cut at the first `{`, and keep the identifier tokens that are not
keywords. -/
def parseModifiersFromSignature (line : List Char) : List (List Char) :=
  match findSub? [')'] line with
  | some idx =>
    if idx > 0 then
      (identTokens ((line.drop (idx + 1)).takeWhile (fun c => c ≠ '\x7b'))).filter
        (fun t => !modifierExcluded.contains t)
    else []
  | none => []

/-- `_extract_function_body` from the line at index `j - clStart` of the
contract lines: accumulate lines (in reverse) and scan braces; `some`
returns the joined body and the absolute end line. -/
def extractFunctionBodyAux :
    List (List Char) → Nat → Int → Bool → List (List Char) → Option (List Char × Nat)
  | [], _, _, _, _ => none
  | l :: rest, j, d, inf, accRev =>
    match charStep? l d inf with
    | none => some (joinNl (l :: accRev).reverse, j)
    | some (d', inf') =>
      if inf' && d' = 0 then none
      else extractFunctionBodyAux rest (j + 1) d' inf' (l :: accRev)

/-- `_extract_contracts`: every line matching the contract pattern whose
brace scan closes contributes one `ContractInfo` (functions, state
variables and modifiers are attached by `parse`). -/
def extractContracts (lines : List (List Char)) : List ContractInfo :=
  lines.enum.filterMap (fun kl =>
    match firstMatch? contractNameAt kl.2 with
    | some nm =>
      match braceEnd? (lines.drop kl.1) (kl.1 + 1) with
      | some j =>
        some { name := nm, functions := [], state_variables := [],
               modifiers := [], line_start := kl.1 + 1, line_end := j }
      | none => none
    | none => none)

/-- The `self.lines[contract.line_start - 1 : contract.line_end]` slice. -/
def contractSlice (lines : List (List Char)) (c : ContractInfo) : List (List Char) :=
  (lines.drop (c.line_start - 1)).take (c.line_end - (c.line_start - 1))

/-- `_extract_functions`: Python's `if func_body and func_end_line:` is
the `some` case — the body always contains the nonempty signature line
and end lines are ≥ 1, so truthiness equals presence. -/
def extractFunctions (lines : List (List Char)) (c : ContractInfo) :
    List FunctionNode :=
  (contractSlice lines c).enum.filterMap (fun kl =>
    match firstMatch? functionNameAt kl.2 with
    | some funcName =>
      if funcName = c.name ∨ funcName = "constructor".data then none
      else
        match extractFunctionBodyAux ((contractSlice lines c).drop kl.1)
            (c.line_start + kl.1) 0 false [] with
        | some be =>
          some { name := funcName,
                 visibility := (extractFunctionProperties kl.2).1,
                 is_payable := (extractFunctionProperties kl.2).2.1,
                 is_view := (extractFunctionProperties kl.2).2.2.1,
                 is_pure := (extractFunctionProperties kl.2).2.2.2,
                 modifiers := parseModifiersFromSignature kl.2,
                 line_start := c.line_start + kl.1, line_end := be.2,
                 body := be.1 }
        | none => none
    | none => none)

/-- `\s*(?:public|private|internal)?\s*;` after the variable-name group
of the state-variable pattern.  A matching visibility keyword not
followed by `;` cannot be rescued (the no-keyword alternative would need
`;` at the keyword's first character), so plain disjunction is the
backtracking-faithful reading. -/
def varTail2 (t : List Char) : Bool :=
  (match (match lit? "public".data (t.dropWhile isWs) with
          | some u => some u
          | none => match lit? "private".data (t.dropWhile isWs) with
            | some u => some u
            | none => lit? "internal".data (t.dropWhile isWs)) with
   | some u => startsWithL [';'] (u.dropWhile isWs)
   | none => false) ||
  startsWithL [';'] (t.dropWhile isWs)

/-- `(\w+(?:\s*\[\s*\])?)\s+(\w+)\s*(?:public|private|internal)?\s*;`
at the head of the input, returning `(type, name)`.  The optional array
brackets are tried first and dropped on failure of the remainder; the
name group backtracks longest-first. -/
def varMatchAt (cs : List Char) : Option (List Char × List Char) :=
  match cs with
  | c :: _ =>
    if isWordChar c then
      let r1 := cs.dropWhile isWordChar
      let attempt := fun (g1len : Nat) (rest : List Char) =>
        match ws1? rest with
        | some t =>
          match longestSplit t varTail2 (t.takeWhile isWordChar).length with
          | some nm => some (cs.take g1len, nm)
          | none => none
        | none => none
      match (do
          let a ← lit? ['['] (r1.dropWhile isWs)
          lit? [']'] (a.dropWhile isWs)) with
      | some rest2 =>
        match attempt (cs.length - rest2.length) rest2 with
        | some r => some r
        | none => attempt (cs.length - r1.length) r1
      | none => attempt (cs.length - r1.length) r1
    else none
  | [] => none

/-- `_extract_state_variables`: lines inside the contract span that do
not contain the substring `function`, matched against the state-variable
pattern; visibility by substring (`public`, then `private`, default
`internal`).  Both captured groups contain no surrounding whitespace, so
Python's `.strip()` is the identity on them. -/
def extractStateVariables (lines : List (List Char)) (c : ContractInfo) :
    List StateVariable :=
  (contractSlice lines c).enum.filterMap (fun kl =>
    if containsSub "function".data kl.2 then none
    else
      match firstMatch? varMatchAt kl.2 with
      | some tn =>
        some { name := tn.2, type := tn.1,
               visibility :=
                 if containsSub "public".data kl.2 then "public"
                 else if containsSub "private".data kl.2 then "private"
                 else "internal",
               line_number := c.line_start + kl.1 }
      | none => none)

/-- `modifier\s+(\w+)\s*\([^)]*\)\s*\{` at the head of the input,
returning the name and the rest after the match. -/
def modifierNameAt (cs : List Char) : Option (List Char × List Char) := do
  let a ← lit? "modifier".data cs
  let b ← ws1? a
  match b with
  | c :: _ =>
    if isWordChar c then do
      let d ← lit? ['('] (wsDrop (b.dropWhile isWordChar))
      let e ← lit? [')'] (d.dropWhile (fun x => x ≠ ')'))
      let f ← lit? ['\x7b'] (wsDrop e)
      some (b.takeWhile isWordChar, f)
    else none
  | [] => none

/-- `re.finditer` of the modifier pattern over the joined contract text
(`_extract_modifiers`); fuel as in `findAllAux`. -/
def findModsAux : Nat → List Char → List (List Char)
  | 0, _ => []
  | _ + 1, [] => []
  | fuel + 1, c :: cs =>
    match modifierNameAt (c :: cs) with
    | some wr =>
      wr.1 :: findModsAux fuel ((c :: cs).drop (max ((c :: cs).length - wr.2.length) 1))
    | none => findModsAux fuel cs

/-- `_extract_modifiers` over a contract's span. -/
def extractModifiers (lines : List (List Char)) (c : ContractInfo) :
    List (List Char) :=
  findModsAux (joinNl (contractSlice lines c)).length (joinNl (contractSlice lines c))

/-- `SolidityParser.parse`.  The Python method wraps the extraction in
`try/except` and returns `[]` on an exception; every operation involved
is total at runtime, which the totality of this function witnesses, so
the exception branch is unreachable and the parser never raises. -/
def parse (source : List Char) : List ContractInfo :=
  let lines := splitLines source
  (extractContracts lines).map (fun c =>
    { c with
      functions := extractFunctions lines c,
      state_variables := extractStateVariables lines c,
      modifiers := extractModifiers lines c })

/-! ## ReentrancyDetector -/

/-- `_check_missing_guard`.  The `has_state_change` local is computed by
the Python code but never used; the guard fires iff the body matches the
external-call pattern, `nonReentrant` is not among the function's
modifiers, and the contract declares a `nonReentrant` modifier. -/
def checkMissingGuard (func : FunctionNode) (c : ContractInfo) (fp : String) :
    List Finding :=
  if searchB extCallGuardM func.body &&
      !func.modifiers.contains "nonReentrant".data &&
      c.modifiers.contains "nonReentrant".data then
    [⟨"HIGH", "Missing Reentrancy Guard", fp, func.line_start, func.name⟩]
  else []

/-- `_check_cei_violation`: for each external-call offset, the first
write offset (in declaration order) greater than the call offset yields
one CRITICAL finding at the call's line, and the inner loop breaks. -/
def checkCeiViolation (func : FunctionNode) (c : ContractInfo) (fp : String) :
    List Finding :=
  let stateVarNames := c.state_variables.map (fun v => v.name)
  if stateVarNames = [] then []
  else
    let callPositions := ceiCallPositions func.body
    let writePos := writePositions stateVarNames func.body
    if callPositions = [] ∨ writePos = [] then []
    else
      callPositions.flatMap (fun cp =>
        match writePos.find? (fun vw => cp < vw.2) with
        | some _ =>
          [⟨"CRITICAL", "Reentrancy Vulnerability: External Call Before State Update",
            fp, func.line_start + (func.body.take cp).count '\n', func.name⟩]
        | none => [])

/-- `_check_deprecated_calls`: each occurrence of `.call.value(` (HIGH),
`.send(` (MEDIUM) and `.transfer(` (MEDIUM) is reported at its line. -/
def checkDeprecatedCalls (func : FunctionNode) (fp : String) : List Finding :=
  ((findAll callDotValueM func.body).map (fun p =>
      (⟨"HIGH", "Deprecated Call Pattern: call.value()", fp,
        func.line_start + (func.body.take p).count '\n', func.name⟩ : Finding))) ++
  ((findAll sendParenM func.body).map (fun p =>
      (⟨"MEDIUM", "Deprecated Call Pattern: send()", fp,
        func.line_start + (func.body.take p).count '\n', func.name⟩ : Finding))) ++
  ((findAll transferParenM func.body).map (fun p =>
      (⟨"MEDIUM", "Deprecated Call Pattern: transfer()", fp,
        func.line_start + (func.body.take p).count '\n', func.name⟩ : Finding)))

/-- `_check_fallback_vectors`. -/
def checkFallbackVectors (func : FunctionNode) (fp : String) : List Finding :=
  if (func.visibility = "public" || func.visibility = "external") &&
      func.is_payable && hasAssign func.body &&
      !hasRequireMsgSender func.body then
    [⟨"MEDIUM", "Potential Reentrancy via Fallback", fp, func.line_start, func.name⟩]
  else []

/-- The four per-function checks of `ReentrancyDetector.detect`, run in
the order of the Python loop body. -/
def reentrancyFuncFindings (c : ContractInfo) (func : FunctionNode) (fp : String) :
    List Finding :=
  checkMissingGuard func c fp ++ checkCeiViolation func c fp ++
  checkDeprecatedCalls func fp ++ checkFallbackVectors func fp

/-- `ReentrancyDetector.detect`: `view`/`pure` functions are skipped
(`continue`).  The `source_code` argument feeds only the unmodelled
`code_snippet` field. -/
def reentrancyDetect (contracts : List ContractInfo) (_source : List Char)
    (fp : String) : List Finding :=
  contracts.flatMap (fun c =>
    c.functions.flatMap (fun f =>
      if f.is_view || f.is_pure then [] else reentrancyFuncFindings c f fp))

/-! ## ValidationDetector -/

/-- `_check_missing_validation`.  Note: only the `require/revert/assert`
test runs on the comment-stripped body; `has_params` and
`has_state_change` are evaluated on the raw body. -/
def checkMissingValidation (func : FunctionNode) (fp : String) : List Finding :=
  if func.is_view || func.is_pure then []
  else
    if searchB hasParamsM func.body &&
        (hasAssign func.body || searchB callSendTransferM func.body) &&
        !searchB validationCallM (stripComments func.body) then
      [⟨"MEDIUM", "Missing Input Validation", fp, func.line_start, func.name⟩]
    else []

/-- Python's `"x.y.z".split(".")` (auxiliary, with accumulator). -/
def splitOnCharAux (sep : Char) : List Char → List Char → List (List Char)
  | [], acc => [acc.reverse]
  | c :: cs, acc =>
    if c = sep then acc.reverse :: splitOnCharAux sep cs []
    else splitOnCharAux sep cs (c :: acc)

/-- Python's `s.split(sep)` for a one-character separator. -/
def splitOnChar (sep : Char) (s : List Char) : List (List Char) :=
  splitOnCharAux sep s []

/-- Python's `int(s)` on the digit-or-empty strings produced by
splitting a `[\d.]+` match on `.` (an empty part raises `ValueError`). -/
def parseNatDigits? (l : List Char) : Option Nat :=
  if l ≠ [] ∧ l.all isDigit then
    some (l.foldl (fun n c => n * 10 + (c.toNat - '0'.toNat)) 0)
  else none

/-- `pragma\s+solidity\s+([\d.]+)` at the head of the input, returning
the captured version group.  Note that the character class contains only
digits and dots, so a leading `^` (the caret form of a pragma) makes the
group fail. -/
def pragmaVersionM (cs : List Char) : Option (List Char) := do
  let a ← lit? "pragma".data cs
  let b ← ws1? a
  let c1 ← lit? "solidity".data b
  let d ← ws1? c1
  match d.takeWhile (fun c => isDigit c || c = '.') with
  | [] => none
  | g => some g

/-- The version test of `_check_unsafe_arithmetic`: true iff the pragma
version parses and `major.minor ≥ 0.8`, in which case the check is
skipped.  A missing match, fewer than two dot-parts, or a non-integer
part (the `ValueError`/`IndexError` branch) yields false. -/
def versionSkip (source : List Char) : Bool :=
  match firstMatch? pragmaVersionM source with
  | some ver =>
    match (splitOnChar '.' ver).take 2 with
    | [a, b] =>
      match parseNatDigits? a, parseNatDigits? b with
      | some major, some minor => major > 0 || (major = 0 && minor ≥ 8)
      | _, _ => false
    | _ => false
  | none => false

/-- The guard lookback of `_check_unsafe_arithmetic`: neither `require`
nor `assert` occurs in the 50 characters before the match. -/
def arithUnguarded (body : List Char) (st : Nat) : Bool :=
  !containsSub "require".data ((body.take st).drop ((body.take st).length - 50)) &&
  !containsSub "assert".data ((body.take st).drop ((body.take st).length - 50))

/-- `_check_unsafe_arithmetic`: skipped entirely when the parsed pragma
version is ≥ 0.8; otherwise, per operator, the first unguarded match
yields one MEDIUM finding (the loop breaks after emitting). -/
def checkUnsafeArithmetic (func : FunctionNode) (source : List Char)
    (fp : String) : List Finding :=
  if versionSkip source then []
  else
    (match (arithPositions '+' func.body).find? (arithUnguarded func.body) with
     | some st =>
       [(⟨"MEDIUM", "Potential Integer Overflow/Underflow: Addition", fp,
          func.line_start + (func.body.take st).count '\n', func.name⟩ : Finding)]
     | none => []) ++
    (match (arithPositions '-' func.body).find? (arithUnguarded func.body) with
     | some st =>
       [(⟨"MEDIUM", "Potential Integer Overflow/Underflow: Subtraction", fp,
          func.line_start + (func.body.take st).count '\n', func.name⟩ : Finding)]
     | none => []) ++
    (match (arithPositions '*' func.body).find? (arithUnguarded func.body) with
     | some st =>
       [(⟨"MEDIUM", "Potential Integer Overflow/Underflow: Multiplication", fp,
          func.line_start + (func.body.take st).count '\n', func.name⟩ : Finding)]
     | none => [])

/-- Hex digits of `[a-fA-F0-9]`. -/
def isHexDigit (c : Char) : Bool :=
  isDigit c || ('a' ≤ c && c ≤ 'f') || ('A' ≤ c && c ≤ 'F')

/-- `0x[a-fA-F0-9]{40}` at the head of the input. -/
def addr40M (cs : List Char) : Option (List Char) := do
  let a ← lit? "0x".data cs
  if (a.takeWhile isHexDigit).length ≥ 40 then some (a.drop 40) else none

/-- `_check_hardcoded_addresses`: per source line, every address match
not preceded by `//` or `/*` earlier on the line is a LOW finding. -/
def checkHardcodedAddresses (source : List Char) (fp : String) : List Finding :=
  (splitLines source).enum.flatMap (fun kl =>
    (findAll addr40M kl.2).flatMap (fun p =>
      if containsSub "//".data (kl.2.take p) ||
          containsSub "/*".data (kl.2.take p) then []
      else [⟨"LOW", "Hardcoded Address", fp, kl.1 + 1, []⟩]))

/-- `ValidationDetector.detect`: per function the missing-validation and
unsafe-arithmetic checks (no `view`/`pure` skip at this level), then the
file-wide hardcoded-address scan. -/
def validationDetect (contracts : List ContractInfo) (source : List Char)
    (fp : String) : List Finding :=
  (contracts.flatMap (fun c =>
    c.functions.flatMap (fun f =>
      checkMissingValidation f fp ++ checkUnsafeArithmetic f source fp))) ++
  checkHardcodedAddresses source fp

/-! ## BadPatternsDetector -/

/-- Python's `str.lower()` on ASCII identifiers. -/
def toLowerL (l : List Char) : List Char := l.map Char.toLower

/-- `_check_insecure_randomness`: one HIGH finding per randomness source
present in the body (not per occurrence), in the pattern-list order. -/
def checkInsecureRandomness (func : FunctionNode) (fp : String) : List Finding :=
  (if containsSub "block.timestamp".data func.body then
    [(⟨"HIGH", "Insecure Randomness: block.timestamp", fp, func.line_start,
       func.name⟩ : Finding)] else []) ++
  (if containsSub "block.number".data func.body then
    [(⟨"HIGH", "Insecure Randomness: block.number", fp, func.line_start,
       func.name⟩ : Finding)] else []) ++
  (if searchB blockhashParenM func.body then
    [(⟨"HIGH", "Insecure Randomness: blockhash()", fp, func.line_start,
       func.name⟩ : Finding)] else []) ++
  (if containsSub "block.difficulty".data func.body then
    [(⟨"HIGH", "Insecure Randomness: block.difficulty", fp, func.line_start,
       func.name⟩ : Finding)] else [])

/-- `_check_unprotected_admin`. -/
def checkUnprotectedAdmin (func : FunctionNode) (fp : String) : List Finding :=
  if (["admin".data, "owner".data, "onlyowner".data, "setowner".data,
       "transferownership".data].any
        (fun k => containsSub k (toLowerL func.name))) &&
      !func.modifiers.any (fun m =>
        m = "onlyOwner".data || m = "onlyAdmin".data || m = "onlyRole".data) &&
      !hasRequireMsgSender func.body then
    [⟨"CRITICAL", "Unprotected Admin Function", fp, func.line_start, func.name⟩]
  else []

/-- `_check_missing_events` (the contract argument is unused by the
Python code). -/
def checkMissingEvents (func : FunctionNode) (fp : String) : List Finding :=
  if hasAssign func.body &&
      (["transfer".data, "withdraw".data, "deposit".data, "mint".data,
        "burn".data, "approve".data].any
          (fun k => containsSub k (toLowerL func.name))) &&
      !searchB emitEventM func.body then
    [⟨"LOW", "Missing Event Emission", fp, func.line_start, func.name⟩]
  else []

/-- `_check_tx_origin`: file-wide line scan; an occurrence is skipped
when `//` or `/*` appears before the first plain occurrence of
`tx.origin` on the line (Python uses `line.find`, not the regex match
position). -/
def checkTxOrigin (source : List Char) (fp : String) : List Finding :=
  (splitLines source).enum.flatMap (fun kl =>
    if hasTxOrigin kl.2 then
      match findSub? "tx.origin".data kl.2 with
      | some q =>
        if containsSub "//".data (kl.2.take q) ||
            containsSub "/*".data (kl.2.take q) then []
        else [⟨"HIGH", "Use of tx.origin", fp, kl.1 + 1, []⟩]
      | none => []
    else [])

/-- `BadPatternsDetector.detect` (no `view`/`pure` skip). -/
def badPatternsDetect (contracts : List ContractInfo) (source : List Char)
    (fp : String) : List Finding :=
  (contracts.flatMap (fun c =>
    c.functions.flatMap (fun f =>
      checkInsecureRandomness f fp ++ checkUnprotectedAdmin f fp ++
      checkMissingEvents f fp))) ++
  checkTxOrigin source fp

/-! ## InsecureCallsDetector -/

/-- `_check_delegatecall`: one finding per matching function, placed at
`func.line_start`; CRITICAL when the body also references `msg.data`,
`msg.sender` or `abi.decode`, HIGH otherwise. -/
def checkDelegatecall (func : FunctionNode) (fp : String) : List Finding :=
  if searchB delegatecallParenM func.body then
    [⟨if containsAny ["msg.data".data, "msg.sender".data, "abi.decode".data]
         func.body then "CRITICAL" else "HIGH",
      "Unsafe delegatecall Usage", fp, func.line_start, func.name⟩]
  else []

/-- `_check_unchecked_returns`. -/
def checkUncheckedReturns (func : FunctionNode) (fp : String) : List Finding :=
  (findAll identCallM func.body).flatMap (fun st =>
    if !searchB boolCaptureM ((func.body.drop st).take 200) &&
        !searchB requireParenM ((func.body.drop st).take 500) then
      [(⟨"MEDIUM", "Unchecked Return Value from External Call", fp,
         func.line_start + (func.body.take st).count '\n', func.name⟩ : Finding)]
    else [])

/-- `InsecureCallsDetector.detect` (no `view`/`pure` skip). -/
def insecureCallsDetect (contracts : List ContractInfo) (_source : List Char)
    (fp : String) : List Finding :=
  contracts.flatMap (fun c =>
    c.functions.flatMap (fun f =>
      checkDelegatecall f fp ++ checkUncheckedReturns f fp))

/-! ## Pipeline and score (`cli.py`) -/

/-- The detector pipeline of `cli.scan_file`/`cli.score_file`: parse,
then run the four detectors in their fixed order and concatenate. -/
def scanFindings (source : List Char) (fp : String) : List Finding :=
  let contracts := parse source
  reentrancyDetect contracts source fp ++
  validationDetect contracts source fp ++
  badPatternsDetect contracts source fp ++
  insecureCallsDetect contracts source fp

/-- The `severity_weights` table of `cli.calculate_score`
(`dict.get(f.severity, 0)`). -/
def severityWeight (s : String) : Int :=
  if s = "CRITICAL" then 20
  else if s = "HIGH" then 15
  else if s = "MEDIUM" then 10
  else if s = "LOW" then 5
  else if s = "INFO" then 2
  else 0

/-- `cli.calculate_score`. -/
def calculate_score (findings : List Finding) : Int :=
  if findings = [] then 100
  else max 0 (100 - (findings.map (fun f => severityWeight f.severity)).sum)

/-! ## Stateful detector instances (for the reuse property)

`BaseDetector` keeps a `self.findings` list; every `detect` begins with
`self.findings = []` and ends returning `self.findings`.  An instance is
modelled by the list it currently holds, and each `detect` method as a
state transformer. -/

/-- A detector instance's mutable state (`self.findings`). -/
structure DetectorState where
  findings : List Finding
deriving DecidableEq, Repr

/-- `ReentrancyDetector.detect` as a state transformer: the incoming
state is overwritten by the reset before any finding is appended. -/
def reentrancyDetectRun (st : DetectorState) (contracts : List ContractInfo)
    (source : List Char) (fp : String) : List Finding × DetectorState :=
  match st with
  | _ =>
    let fs := reentrancyDetect contracts source fp
    (fs, ⟨fs⟩)

/-- `ValidationDetector.detect` as a state transformer. -/
def validationDetectRun (st : DetectorState) (contracts : List ContractInfo)
    (source : List Char) (fp : String) : List Finding × DetectorState :=
  match st with
  | _ =>
    let fs := validationDetect contracts source fp
    (fs, ⟨fs⟩)

/-- `BadPatternsDetector.detect` as a state transformer. -/
def badPatternsDetectRun (st : DetectorState) (contracts : List ContractInfo)
    (source : List Char) (fp : String) : List Finding × DetectorState :=
  match st with
  | _ =>
    let fs := badPatternsDetect contracts source fp
    (fs, ⟨fs⟩)

/-- `InsecureCallsDetector.detect` as a state transformer. -/
def insecureCallsDetectRun (st : DetectorState) (contracts : List ContractInfo)
    (source : List Char) (fp : String) : List Finding × DetectorState :=
  match st with
  | _ =>
    let fs := insecureCallsDetect contracts source fp
    (fs, ⟨fs⟩)

/-! ## Concrete sources used by individual claims -/

/-- A source using the caret pragma form `^0.8.0` together with
unguarded arithmetic (claim C1). -/
def srcCaretPragma : List Char :=
  ("pragma solidity ^0.8.0;\ncontract T \x7b\n    function add(uint256 a, uint256 b) public \x7b\n        c = a + b;\n    \x7d\n\x7d\n").data

/-- The spec's CEI example: require, then external call, then state
write (claim C2). -/
def srcCei : List Char :=
  ("pragma solidity ^0.7.0;\ncontract Vulnerable \x7b\n    mapping(address => uint256) public balances;\n    function withdraw(uint256 amount) public \x7b\n        require(balances[msg.sender] >= amount);\n        msg.sender.call\x7bvalue: amount\x7d(\"\");\n        balances[msg.sender] -= amount;\n    \x7d\n\x7d\n").data

/-- The spec's CEI example with the call and the state write swapped
(claim C2). -/
def srcCeiSwapped : List Char :=
  ("pragma solidity ^0.7.0;\ncontract Vulnerable \x7b\n    mapping(address => uint256) public balances;\n    function withdraw(uint256 amount) public \x7b\n        require(balances[msg.sender] >= amount);\n        balances[msg.sender] -= amount;\n        msg.sender.call\x7bvalue: amount\x7d(\"\");\n    \x7d\n\x7d\n").data

/-- A source whose first contract construct never closes its brace and a
later contract that does (claim C3). -/
def srcUnterminated : List Char :=
  ("contract A \x7b\ncontract B \x7b \x7d").data

/-- A function whose only assignment sits inside a `//` comment
(claim C5). -/
def srcCommentAssign : List Char :=
  ("contract T \x7b\n    function setX(uint256 v) public \x7b\n        // fallback = 1\n    \x7d\n\x7d\n").data

/-- A function whose `.delegatecall(` sits on a line after the
signature line (claim C6). -/
def srcDelegate : List Char :=
  ("contract D \x7b\n    function run() public \x7b\n        target.delegatecall(data);\n    \x7d\n\x7d\n").data

/-- A contract with a `nonReentrant` modifier and a function named
`updateViewCount` that makes an external call (claim C10). -/
def srcUpdateView : List Char :=
  ("contract V \x7b\n    modifier nonReentrant() \x7b _; \x7d\n    function updateViewCount(uint256 n) public \x7b\n        target.call(\"\");\n        count = n;\n    \x7d\n\x7d\n").data

/-! ## Helper lemmas -/

/-- Every severity weight is nonnegative. -/
lemma severityWeight_nonneg (s : String) : 0 ≤ severityWeight s := by
  unfold severityWeight
  split_ifs <;> norm_num

/-- The weight sum of a finding list is nonnegative. -/
lemma sum_weights_nonneg (fs : List Finding) :
    0 ≤ (fs.map (fun f => severityWeight f.severity)).sum := by
  induction fs with
  | nil => simp
  | cons a l ih =>
    simp only [List.map_cons, List.sum_cons]
    have := severityWeight_nonneg a.severity
    omega

/-- `calculate_score` satisfies the clamped formula on every list (the
Python early return for the empty list agrees with the formula). -/
lemma calculate_score_eq (fs : List Finding) :
    calculate_score fs = max 0 (100 - (fs.map (fun f => severityWeight f.severity)).sum) := by
  cases fs with
  | nil => simp [calculate_score]
  | cons a l => simp [calculate_score]

/-- A list of CRITICAL findings weighs 20 per element. -/
lemma sum_weights_critical (fs : List Finding)
    (h : ∀ f ∈ fs, f.severity = "CRITICAL") :
    (fs.map (fun f => severityWeight f.severity)).sum = 20 * fs.length := by
  induction fs with
  | nil => simp
  | cons a l ih =>
    have ha := h a (by simp)
    simp only [List.map_cons, List.sum_cons, List.length_cons]
    rw [ih (fun f hf => h f (by simp [hf]))]
    simp [ha, severityWeight]
    ring

/-- `find?` succeeds exactly when `any` does. -/
lemma find?_isSome_eq_any (l : List α) (p : α → Bool) :
    (l.find? p).isSome = l.any p := by
  induction l with
  | nil => rfl
  | cons a t ih =>
    cases hp : p a <;> simp [List.find?, hp, ih]

/-- Length of a `flatMap` whose element images are singletons or empty. -/
lemma length_flatMap_count (l : List α) (g : α → List β) (p : α → Bool)
    (h : ∀ a ∈ l, (g a).length = if p a then 1 else 0) :
    (l.flatMap g).length = (l.filter p).length := by
  induction l with
  | nil => simp
  | cons a t ih =>
    simp only [List.flatMap_cons, List.length_append, List.filter_cons]
    rw [h a (by simp), ih (fun x hx => h x (by simp [hx]))]
    by_cases hp : p a = true
    · simp only [hp, if_true, List.length_cons]
      omega
    · simp only [Bool.not_eq_true] at hp
      simp [hp]

/-- Membership characterisation of `_check_missing_guard`'s output. -/
lemma mem_checkMissingGuard {f : FunctionNode} {c : ContractInfo} {fp : String}
    {fnd : Finding} :
    fnd ∈ checkMissingGuard f c fp ↔
      searchB extCallGuardM f.body = true ∧
      "nonReentrant".data ∉ f.modifiers ∧
      "nonReentrant".data ∈ c.modifiers ∧
      fnd = ⟨"HIGH", "Missing Reentrancy Guard", fp, f.line_start, f.name⟩ := by
  unfold checkMissingGuard
  split_ifs with h
  · simp only [Bool.and_eq_true, Bool.not_eq_true'] at h
    obtain ⟨⟨h1, h2⟩, h3⟩ := h
    replace h2 : "nonReentrant".data ∉ f.modifiers := by simpa using h2
    replace h3 : "nonReentrant".data ∈ c.modifiers := by simpa using h3
    simp [h1, h2, h3]
  · simp only [Bool.and_eq_true, Bool.not_eq_true', not_and] at h
    constructor
    · intro hx
      simp at hx
    · rintro ⟨h1, h2, h3, rfl⟩
      exact absurd (by simpa using h3) (h ⟨h1, by simpa using h2⟩)

/-- What any finding of `_check_cei_violation` looks like. -/
lemma mem_checkCeiViolation {f : FunctionNode} {c : ContractInfo} {fp : String}
    {fnd : Finding} (h : fnd ∈ checkCeiViolation f c fp) :
    fnd.severity = "CRITICAL" ∧
    fnd.title = "Reentrancy Vulnerability: External Call Before State Update" ∧
    fnd.file_path = fp ∧ fnd.function_name = f.name ∧
    ∃ cp ∈ ceiCallPositions f.body,
      ((writePositions (c.state_variables.map (fun v => v.name)) f.body).find?
        (fun vw => cp < vw.2)).isSome = true ∧
      fnd.line_number = f.line_start + (f.body.take cp).count '\n' := by
  simp only [checkCeiViolation] at h
  split_ifs at h with h1 h2
  · simp at h
  · simp at h
  · rw [List.mem_flatMap] at h
    obtain ⟨cp, hcp, hmem⟩ := h
    cases hfind : (writePositions (c.state_variables.map (fun v => v.name))
        f.body).find? (fun vw => cp < vw.2) with
    | none => rw [hfind] at hmem; simp at hmem
    | some vw =>
      rw [hfind] at hmem
      simp only [List.mem_singleton] at hmem
      subst hmem
      exact ⟨rfl, rfl, rfl, rfl, cp, hcp, by rw [hfind]; rfl, rfl⟩

/-- What any finding of `_check_deprecated_calls` looks like. -/
lemma mem_checkDeprecatedCalls {f : FunctionNode} {fp : String} {fnd : Finding}
    (h : fnd ∈ checkDeprecatedCalls f fp) :
    (fnd.severity = "HIGH" ∨ fnd.severity = "MEDIUM") ∧
    (fnd.title = "Deprecated Call Pattern: call.value()" ∨
     fnd.title = "Deprecated Call Pattern: send()" ∨
     fnd.title = "Deprecated Call Pattern: transfer()") ∧
    ∃ p, fnd.line_number = f.line_start + (f.body.take p).count '\n' := by
  unfold checkDeprecatedCalls at h
  rcases List.mem_append.mp h with h' | h'
  · rcases List.mem_append.mp h' with h'' | h''
    · obtain ⟨p, _, rfl⟩ := List.mem_map.mp h''
      exact ⟨Or.inl rfl, Or.inl rfl, p, rfl⟩
    · obtain ⟨p, _, rfl⟩ := List.mem_map.mp h''
      exact ⟨Or.inr rfl, Or.inr (Or.inl rfl), p, rfl⟩
  · obtain ⟨p, _, rfl⟩ := List.mem_map.mp h'
    exact ⟨Or.inr rfl, Or.inr (Or.inr rfl), p, rfl⟩

/-- What any finding of `_check_fallback_vectors` looks like. -/
lemma mem_checkFallbackVectors {f : FunctionNode} {fp : String} {fnd : Finding}
    (h : fnd ∈ checkFallbackVectors f fp) :
    fnd = ⟨"MEDIUM", "Potential Reentrancy via Fallback", fp, f.line_start, f.name⟩ := by
  unfold checkFallbackVectors at h
  split_ifs at h with hc
  · simpa using h
  · simp at h

/-- Membership characterisation of `_check_missing_validation`'s output. -/
lemma mem_checkMissingValidation {f : FunctionNode} {fp : String} {fnd : Finding} :
    fnd ∈ checkMissingValidation f fp ↔
      f.is_view = false ∧ f.is_pure = false ∧
      searchB hasParamsM f.body = true ∧
      (hasAssign f.body || searchB callSendTransferM f.body) = true ∧
      searchB validationCallM (stripComments f.body) = false ∧
      fnd = ⟨"MEDIUM", "Missing Input Validation", fp, f.line_start, f.name⟩ := by
  unfold checkMissingValidation
  split_ifs with h1 h2
  · constructor
    · intro hx
      simp at hx
    · rintro ⟨hv, hp, _⟩
      rw [hv, hp] at h1
      simp at h1
  · rw [Bool.or_eq_true, not_or, Bool.not_eq_true, Bool.not_eq_true] at h1
    simp only [Bool.and_eq_true, Bool.not_eq_true'] at h2
    simp [h1.1, h1.2, h2.1.1, h2.1.2, h2.2]
  · rw [Bool.or_eq_true, not_or, Bool.not_eq_true, Bool.not_eq_true] at h1
    simp only [Bool.and_eq_true, Bool.not_eq_true', not_and] at h2
    constructor
    · intro hx
      simp at hx
    · rintro ⟨_, _, h3, h4, h5, rfl⟩
      exact absurd h5 (h2 ⟨h3, h4⟩)

/-- What any finding of `_check_unsafe_arithmetic` looks like. -/
lemma mem_checkUnsafeArithmetic {f : FunctionNode} {src : List Char} {fp : String}
    {fnd : Finding} (h : fnd ∈ checkUnsafeArithmetic f src fp) :
    fnd.severity = "MEDIUM" ∧
    (fnd.title = "Potential Integer Overflow/Underflow: Addition" ∨
     fnd.title = "Potential Integer Overflow/Underflow: Subtraction" ∨
     fnd.title = "Potential Integer Overflow/Underflow: Multiplication") ∧
    ∃ p, fnd.line_number = f.line_start + (f.body.take p).count '\n' := by
  unfold checkUnsafeArithmetic at h
  split_ifs at h with hv
  · simp at h
  · rcases List.mem_append.mp h with h' | h'
    · rcases List.mem_append.mp h' with h'' | h''
      · split at h''
        · simp only [List.mem_singleton] at h''
          subst h''
          exact ⟨rfl, Or.inl rfl, _, rfl⟩
        · simp at h''
      · split at h''
        · simp only [List.mem_singleton] at h''
          subst h''
          exact ⟨rfl, Or.inr (Or.inl rfl), _, rfl⟩
        · simp at h''
    · split at h'
      · simp only [List.mem_singleton] at h'
        subst h'
        exact ⟨rfl, Or.inr (Or.inr rfl), _, rfl⟩
      · simp at h'

/-- What any finding of `_check_hardcoded_addresses` looks like. -/
lemma mem_checkHardcodedAddresses {src : List Char} {fp : String} {fnd : Finding}
    (h : fnd ∈ checkHardcodedAddresses src fp) :
    fnd.severity = "LOW" ∧ fnd.title = "Hardcoded Address" ∧
    ∃ k, k < (splitLines src).length ∧ fnd.line_number = k + 1 := by
  unfold checkHardcodedAddresses at h
  rw [List.mem_flatMap] at h
  obtain ⟨kl, hkl, h⟩ := h
  rw [List.mem_flatMap] at h
  obtain ⟨p, _, h⟩ := h
  split_ifs at h with hc
  · simp at h
  · simp only [List.mem_singleton] at h
    subst h
    have hget := List.mem_enum_iff_get?.mp hkl
    exact ⟨rfl, rfl, kl.1, List.get?_eq_some.mp hget |>.1, rfl⟩

/-- What any finding of `_check_insecure_randomness` looks like. -/
lemma mem_checkInsecureRandomness {f : FunctionNode} {fp : String} {fnd : Finding}
    (h : fnd ∈ checkInsecureRandomness f fp) :
    fnd.severity = "HIGH" ∧ fnd.line_number = f.line_start := by
  unfold checkInsecureRandomness at h
  rcases List.mem_append.mp h with h' | h'
  · rcases List.mem_append.mp h' with h'' | h''
    · rcases List.mem_append.mp h'' with h3 | h3
      all_goals split_ifs at h3 <;> simp at h3 <;> subst h3 <;> exact ⟨rfl, rfl⟩
    · split_ifs at h'' <;> simp at h'' <;> subst h'' <;> exact ⟨rfl, rfl⟩
  · split_ifs at h' <;> simp at h' <;> subst h' <;> exact ⟨rfl, rfl⟩

/-- What any finding of `_check_unprotected_admin` looks like. -/
lemma mem_checkUnprotectedAdmin {f : FunctionNode} {fp : String} {fnd : Finding}
    (h : fnd ∈ checkUnprotectedAdmin f fp) :
    fnd = ⟨"CRITICAL", "Unprotected Admin Function", fp, f.line_start, f.name⟩ := by
  unfold checkUnprotectedAdmin at h
  split_ifs at h with hc
  · simpa using h
  · simp at h

/-- What any finding of `_check_missing_events` looks like. -/
lemma mem_checkMissingEvents {f : FunctionNode} {fp : String} {fnd : Finding}
    (h : fnd ∈ checkMissingEvents f fp) :
    fnd = ⟨"LOW", "Missing Event Emission", fp, f.line_start, f.name⟩ := by
  unfold checkMissingEvents at h
  split_ifs at h with hc
  · simpa using h
  · simp at h

/-- What any finding of `_check_tx_origin` looks like. -/
lemma mem_checkTxOrigin {src : List Char} {fp : String} {fnd : Finding}
    (h : fnd ∈ checkTxOrigin src fp) :
    fnd.severity = "HIGH" ∧ fnd.title = "Use of tx.origin" ∧
    ∃ k, k < (splitLines src).length ∧ fnd.line_number = k + 1 := by
  unfold checkTxOrigin at h
  rw [List.mem_flatMap] at h
  obtain ⟨kl, hkl, h⟩ := h
  split_ifs at h with h1
  · split at h
    · split_ifs at h with h2
      · simp at h
      · simp only [List.mem_singleton] at h
        subst h
        have hget := List.mem_enum_iff_get?.mp hkl
        exact ⟨rfl, rfl, kl.1, List.get?_eq_some.mp hget |>.1, rfl⟩
    · simp at h
  · simp at h

/-- Membership characterisation of `_check_delegatecall`'s output. -/
lemma mem_checkDelegatecall {f : FunctionNode} {fp : String} {fnd : Finding} :
    fnd ∈ checkDelegatecall f fp ↔
      searchB delegatecallParenM f.body = true ∧
      fnd = ⟨if containsAny ["msg.data".data, "msg.sender".data, "abi.decode".data]
               f.body then "CRITICAL" else "HIGH",
             "Unsafe delegatecall Usage", fp, f.line_start, f.name⟩ := by
  unfold checkDelegatecall
  split_ifs with h h2
  · simp [h, h2, eq_comm]
  · simp [h, h2, eq_comm]
  · simp [h]
  · simp [h]

/-- What any finding of `_check_unchecked_returns` looks like. -/
lemma mem_checkUncheckedReturns {f : FunctionNode} {fp : String} {fnd : Finding}
    (h : fnd ∈ checkUncheckedReturns f fp) :
    fnd.severity = "MEDIUM" ∧
    fnd.title = "Unchecked Return Value from External Call" ∧
    ∃ p, fnd.line_number = f.line_start + (f.body.take p).count '\n' := by
  unfold checkUncheckedReturns at h
  rw [List.mem_flatMap] at h
  obtain ⟨st, _, h⟩ := h
  split_ifs at h with hc
  · simp only [List.mem_singleton] at h
    subst h
    exact ⟨rfl, rfl, st, rfl⟩
  · simp at h

/-! ## Structural lemmas for the line-number invariant (claim C8) -/

/-- No element produced by `splitLinesAux` contains a newline, provided
the accumulator does not. -/
lemma splitLinesAux_no_nl (cs : List Char) :
    ∀ (acc : List Char), '\n' ∉ acc → ∀ l ∈ splitLinesAux cs acc, '\n' ∉ l := by
  induction cs with
  | nil =>
    intro acc hacc l hl
    simp only [splitLinesAux, List.mem_singleton] at hl
    subst hl
    simpa using hacc
  | cons c cs ih =>
    intro acc hacc l hl
    simp only [splitLinesAux] at hl
    by_cases hc : c = '\n'
    · rw [if_pos hc] at hl
      rcases List.mem_cons.mp hl with rfl | hl2
      · simpa using hacc
      · exact ih [] (by simp) l hl2
    · rw [if_neg hc] at hl
      refine ih (c :: acc) ?_ l hl
      simp only [List.mem_cons, not_or]
      exact ⟨fun h => hc h.symm, hacc⟩

/-- No line of `splitLines` contains a newline. -/
lemma splitLines_no_nl (s : List Char) : ∀ l ∈ splitLines s, '\n' ∉ l :=
  splitLinesAux_no_nl s [] (by simp)

/-- `joinNl` of newline-free parts has one newline per junction. -/
lemma joinNl_count (ls : List (List Char)) (h : ∀ l ∈ ls, '\n' ∉ l) :
    (joinNl ls).count '\n' = ls.length - 1 := by
  induction ls with
  | nil => simp [joinNl]
  | cons a t ih =>
    cases t with
    | nil =>
      simp only [joinNl, List.length_cons, List.length_nil]
      rw [List.count_eq_zero.mpr (h a (by simp))]
    | cons b t2 =>
      have hj : joinNl (a :: b :: t2) = a ++ '\n' :: joinNl (b :: t2) := rfl
      rw [hj, List.count_append, List.count_cons,
        ih (fun l hl => h l (List.mem_cons_of_mem a hl)),
        List.count_eq_zero.mpr (h a (by simp))]
      simp only [List.length_cons, beq_self_eq_true, if_pos]
      omega

/-- A successful contract brace scan ends within the scanned lines. -/
lemma braceEndAux_bounds (ls : List (List Char)) :
    ∀ (j : Nat) (d : Int) (st : Bool) (r : Nat),
      braceEndAux ls j d st = some r → j ≤ r ∧ r < j + ls.length := by
  induction ls with
  | nil =>
    intro j d st r h
    simp [braceEndAux] at h
  | cons l rest ih =>
    intro j d st r h
    unfold braceEndAux at h
    cases hcs : charStep? l d st with
    | none =>
      rw [hcs] at h
      simp only [Option.some.injEq] at h
      subst h
      simp
    | some p =>
      obtain ⟨d', st'⟩ := p
      rw [hcs] at h
      dsimp only at h
      split_ifs at h with habort
      have := ih (j + 1) d' st' r h
      simp only [List.length_cons]
      omega

/-- A successful function-body scan ends within the scanned lines, and
the body's newline count equals accumulated lines plus scanned lines
minus one (so, started from an empty accumulator at line `j`, the body
has exactly `e - j` newlines). -/
lemma bodyAux_spec (ls : List (List Char)) :
    ∀ (j : Nat) (d : Int) (st : Bool) (accRev : List (List Char))
      (body : List Char) (e : Nat),
      (∀ l ∈ ls, '\n' ∉ l) → (∀ l ∈ accRev, '\n' ∉ l) →
      extractFunctionBodyAux ls j d st accRev = some (body, e) →
      j ≤ e ∧ e < j + ls.length ∧
        body.count '\n' = accRev.length + (e - j) := by
  induction ls with
  | nil =>
    intro j d st accRev body e _ _ h
    simp [extractFunctionBodyAux] at h
  | cons l rest ih =>
    intro j d st accRev body e hls hacc h
    unfold extractFunctionBodyAux at h
    cases hcs : charStep? l d st with
    | none =>
      rw [hcs] at h
      simp only [Option.some.injEq, Prod.mk.injEq] at h
      obtain ⟨hbody, he⟩ := h
      subst hbody
      subst he
      refine ⟨le_refl _, by simp, ?_⟩
      have hfree : ∀ x ∈ (l :: accRev).reverse, '\n' ∉ x := by
        intro x hx
        rw [List.mem_reverse] at hx
        rcases List.mem_cons.mp hx with rfl | hx
        · exact hls x (by simp)
        · exact hacc x hx
      rw [joinNl_count _ hfree]
      simp
    | some p =>
      obtain ⟨d', st'⟩ := p
      rw [hcs] at h
      dsimp only at h
      split_ifs at h with habort
      have := ih (j + 1) d' st' (l :: accRev) body e
        (fun x hx => hls x (by simp [hx]))
        (fun x hx => by
          rcases List.mem_cons.mp hx with rfl | hx
          · exact hls x (by simp)
          · exact hacc x hx) h
      simp only [List.length_cons] at this ⊢
      omega

/-- Index of an `enum` member is below the list length. -/
lemma enum_fst_lt {l : List α} {kl : Nat × α} (h : kl ∈ l.enum) :
    kl.1 < l.length :=
  (List.get?_eq_some.mp (List.mem_enum_iff_get?.mp h)).1

/-- Line-range bounds established by the parser: every recorded contract
spans existing lines, and every recorded function starts at a real line
and its body contains exactly the newlines between its start and an
existing end line. -/
lemma parse_bounds (source : List Char) (c : ContractInfo)
    (hc : c ∈ parse source) :
    (1 ≤ c.line_start ∧ c.line_start ≤ c.line_end ∧
      c.line_end ≤ (splitLines source).length) ∧
    (∀ f ∈ c.functions, 1 ≤ f.line_start ∧
      f.line_start + f.body.count '\n' ≤ (splitLines source).length) := by
  simp only [parse] at hc
  rw [List.mem_map] at hc
  obtain ⟨c0, hc0, heq⟩ := hc
  unfold extractContracts at hc0
  rw [List.mem_filterMap] at hc0
  obtain ⟨kl, hkl, h0⟩ := hc0
  split at h0
  case h_2 => simp at h0
  case h_1 nm hnm =>
    split at h0
    case h_2 => simp at h0
    case h_1 j hbe =>
      simp only [Option.some.injEq] at h0
      subst h0
      have hkn : kl.1 < (splitLines source).length := enum_fst_lt hkl
      have hbb := braceEndAux_bounds ((splitLines source).drop kl.1)
        (kl.1 + 1) 0 false j hbe
      rw [List.length_drop] at hbb
      have hls : c.line_start = kl.1 + 1 := by rw [← heq]
      have hle : c.line_end = j := by rw [← heq]
      have hfs : c.functions = extractFunctions (splitLines source)
          ⟨nm, [], [], [], kl.1 + 1, j⟩ := by rw [← heq]
      constructor
      · rw [hls, hle]
        refine ⟨by omega, by omega, by omega⟩
      · intro f hf
        rw [hfs] at hf
        unfold extractFunctions at hf
        simp only [contractSlice] at hf
        rw [List.mem_filterMap] at hf
        obtain ⟨kl2, hkl2, h1⟩ := hf
        split at h1
        next fnm hfnm =>
          split_ifs at h1 with hctor
          split at h1
          next be hba =>
            simp only [Option.some.injEq] at h1
            subst h1
            have hk2 := enum_fst_lt hkl2
            rw [List.length_take, List.length_drop] at hk2
            have hspec := bodyAux_spec _ _ _ _ _ _ _
              (fun x hx => splitLines_no_nl source x
                (List.mem_of_mem_drop (List.mem_of_mem_take
                  (List.mem_of_mem_drop hx))))
              (by simp) hba
            rw [List.length_drop, List.length_take, List.length_drop,
              List.length_nil] at hspec
            constructor
            · simp only []
              omega
            · simp only []
              omega
          next => simp at h1
        next => simp at h1

/-- Severity is one of the five enum values and the line number names an
existing 1-based source line. -/
def findingOk (n : Nat) (fnd : Finding) : Prop :=
  (fnd.severity = "CRITICAL" ∨ fnd.severity = "HIGH" ∨ fnd.severity = "MEDIUM" ∨
    fnd.severity = "LOW" ∨ fnd.severity = "INFO") ∧
  1 ≤ fnd.line_number ∧ fnd.line_number ≤ n

/-- Introduction form of `findingOk` for an explicit finding record. -/
lemma findingOk_mk {n : Nat} {sev title fp : String} {ln : Nat} {fn : List Char}
    (hs : sev = "CRITICAL" ∨ sev = "HIGH" ∨ sev = "MEDIUM" ∨
      sev = "LOW" ∨ sev = "INFO")
    (h1 : 1 ≤ ln) (h2 : ln ≤ n) :
    findingOk n ⟨sev, title, fp, ln, fn⟩ :=
  ⟨hs, h1, h2⟩

/-- Bounds of the function-level line numbers the detectors emit. -/
lemma line_take_bound {n : Nat} {f : FunctionNode}
    (h1 : 1 ≤ f.line_start)
    (h2 : f.line_start + f.body.count '\n' ≤ n) (p : Nat) :
    1 ≤ f.line_start + (f.body.take p).count '\n' ∧
      f.line_start + (f.body.take p).count '\n' ≤ n := by
  have := (List.take_sublist p f.body).count_le '\n'
  omega

/-- All ReentrancyDetector findings are well formed, given the parser
bounds for every function. -/
lemma reentrancyDetect_ok {cs : List ContractInfo} {src : List Char}
    {fp : String} {n : Nat}
    (hb : ∀ c ∈ cs, ∀ f ∈ c.functions, 1 ≤ f.line_start ∧
      f.line_start + f.body.count '\n' ≤ n) :
    ∀ fnd ∈ reentrancyDetect cs src fp, findingOk n fnd := by
  intro fnd hmem
  unfold reentrancyDetect at hmem
  rw [List.mem_flatMap] at hmem
  obtain ⟨c, hc, hmem⟩ := hmem
  rw [List.mem_flatMap] at hmem
  obtain ⟨f, hf, hmem⟩ := hmem
  obtain ⟨hf1, hf2⟩ := hb c hc f hf
  split_ifs at hmem
  · simp at hmem
  · unfold reentrancyFuncFindings at hmem
    rcases List.mem_append.mp hmem with hmem' | hfall
    · rcases List.mem_append.mp hmem' with hmem'' | hdep
      · rcases List.mem_append.mp hmem'' with hguard | hcei
        · obtain ⟨_, _, _, rfl⟩ := mem_checkMissingGuard.mp hguard
          exact findingOk_mk (by tauto) (by omega) (by omega)
        · obtain ⟨hs, _, _, _, cp, _, _, hline⟩ := mem_checkCeiViolation hcei
          have := line_take_bound hf1 hf2 cp
          exact ⟨by tauto, by omega, by omega⟩
      · obtain ⟨hs, _, p, hline⟩ := mem_checkDeprecatedCalls hdep
        have := line_take_bound hf1 hf2 p
        exact ⟨by tauto, by omega, by omega⟩
    · have heq := mem_checkFallbackVectors hfall
      subst heq
      exact findingOk_mk (by tauto) (by omega) (by omega)

/-- All ValidationDetector findings are well formed. -/
lemma validationDetect_ok {cs : List ContractInfo} {src : List Char}
    {fp : String}
    (hb : ∀ c ∈ cs, ∀ f ∈ c.functions, 1 ≤ f.line_start ∧
      f.line_start + f.body.count '\n' ≤ (splitLines src).length) :
    ∀ fnd ∈ validationDetect cs src fp,
      findingOk (splitLines src).length fnd := by
  intro fnd hmem
  unfold validationDetect at hmem
  rcases List.mem_append.mp hmem with hmem | hhard
  · rw [List.mem_flatMap] at hmem
    obtain ⟨c, hc, hmem⟩ := hmem
    rw [List.mem_flatMap] at hmem
    obtain ⟨f, hf, hmem⟩ := hmem
    obtain ⟨hf1, hf2⟩ := hb c hc f hf
    rcases List.mem_append.mp hmem with hmv | hua
    · obtain ⟨_, _, _, _, _, rfl⟩ := mem_checkMissingValidation.mp hmv
      exact findingOk_mk (by tauto) (by omega) (by omega)
    · obtain ⟨hs, _, p, hline⟩ := mem_checkUnsafeArithmetic hua
      have := line_take_bound hf1 hf2 p
      exact ⟨by tauto, by omega, by omega⟩
  · obtain ⟨hs, _, k, hk, hline⟩ := mem_checkHardcodedAddresses hhard
    exact ⟨by tauto, by omega, by omega⟩

/-- All BadPatternsDetector findings are well formed. -/
lemma badPatternsDetect_ok {cs : List ContractInfo} {src : List Char}
    {fp : String}
    (hb : ∀ c ∈ cs, ∀ f ∈ c.functions, 1 ≤ f.line_start ∧
      f.line_start + f.body.count '\n' ≤ (splitLines src).length) :
    ∀ fnd ∈ badPatternsDetect cs src fp,
      findingOk (splitLines src).length fnd := by
  intro fnd hmem
  unfold badPatternsDetect at hmem
  rcases List.mem_append.mp hmem with hmem | htx
  · rw [List.mem_flatMap] at hmem
    obtain ⟨c, hc, hmem⟩ := hmem
    rw [List.mem_flatMap] at hmem
    obtain ⟨f, hf, hmem⟩ := hmem
    obtain ⟨hf1, hf2⟩ := hb c hc f hf
    rcases List.mem_append.mp hmem with hmem' | hev
    · rcases List.mem_append.mp hmem' with hrand | hadm
      · obtain ⟨hs, hline⟩ := mem_checkInsecureRandomness hrand
        exact ⟨by tauto, by omega, by omega⟩
      · have heq := mem_checkUnprotectedAdmin hadm
        subst heq
        exact findingOk_mk (by tauto) (by omega) (by omega)
    · have heq := mem_checkMissingEvents hev
      subst heq
      exact findingOk_mk (by tauto) (by omega) (by omega)
  · obtain ⟨hs, _, k, hk, hline⟩ := mem_checkTxOrigin htx
    exact ⟨by tauto, by omega, by omega⟩

/-- All InsecureCallsDetector findings are well formed. -/
lemma insecureCallsDetect_ok {cs : List ContractInfo} {src : List Char}
    {fp : String} {n : Nat}
    (hb : ∀ c ∈ cs, ∀ f ∈ c.functions, 1 ≤ f.line_start ∧
      f.line_start + f.body.count '\n' ≤ n) :
    ∀ fnd ∈ insecureCallsDetect cs src fp, findingOk n fnd := by
  intro fnd hmem
  unfold insecureCallsDetect at hmem
  rw [List.mem_flatMap] at hmem
  obtain ⟨c, hc, hmem⟩ := hmem
  rw [List.mem_flatMap] at hmem
  obtain ⟨f, hf, hmem⟩ := hmem
  obtain ⟨hf1, hf2⟩ := hb c hc f hf
  rcases List.mem_append.mp hmem with hdel | hunc
  · obtain ⟨_, rfl⟩ := mem_checkDelegatecall.mp hdel
    refine findingOk_mk ?_ (by omega) (by omega)
    split_ifs
    · tauto
    · tauto
  · obtain ⟨hs, _, p, hline⟩ := mem_checkUncheckedReturns hunc
    have := line_take_bound hf1 hf2 p
    exact ⟨by tauto, by omega, by omega⟩

/-! ## Claim theorems -/

/-- C1: the spec says a pragma parsing to `major.minor ≥ 0.8` —
explicitly including the caret form `pragma solidity ^0.8.0;` — makes
`ValidationDetector` skip the unsafe-arithmetic check.  In the code the
version regex group `([\d.]+)` cannot match past the `^`, so under the
caret form the version does not parse at all, the check runs, and an
"Potential Integer Overflow/Underflow: Addition" finding is emitted for
unguarded arithmetic.  The spec (its §8 testable property) is the stated
intent and the code's own recommendation text tells users to write
`pragma solidity ^0.8.0;`, so this is a code bug.  This theorem
evaluates the embedded code at the failing input. -/
theorem c1_caret_pragma_check_runs :
    firstMatch? pragmaVersionM srcCaretPragma = none ∧
    versionSkip srcCaretPragma = false ∧
    (validationDetect (parse srcCaretPragma) srcCaretPragma "t.sol").any
      (fun f => f.title = "Potential Integer Overflow/Underflow: Addition") = true ∧
    versionSkip "pragma solidity 0.8.0;".data = true := by
  refine ⟨by decide, by decide, by decide, by decide⟩

/-- C7: the derived security score equals
`max 0 (100 − Σ weight(severity))` with the weight table
`CRITICAL:20, HIGH:15, MEDIUM:10, LOW:5, INFO:2` (`severityWeight`),
always lies in `[0, 100]`, is monotonically non-increasing as findings
are appended, yields 0 on any five CRITICAL findings, and yields 100 on
the empty list. -/
theorem c7_score_formula :
    (∀ fs, calculate_score fs =
      max 0 (100 - (fs.map (fun f => severityWeight f.severity)).sum)) ∧
    (∀ fs, 0 ≤ calculate_score fs ∧ calculate_score fs ≤ 100) ∧
    (∀ fs f, calculate_score (fs ++ [f]) ≤ calculate_score fs) ∧
    (∀ fs, fs.length = 5 → (∀ f ∈ fs, f.severity = "CRITICAL") →
      calculate_score fs = 0) ∧
    calculate_score [] = 100 := by
  refine ⟨calculate_score_eq, ?_, ?_, ?_, by decide⟩
  · intro fs
    rw [calculate_score_eq]
    have := sum_weights_nonneg fs
    omega
  · intro fs f
    rw [calculate_score_eq, calculate_score_eq]
    simp only [List.map_append, List.sum_append, List.map_cons, List.map_nil,
      List.sum_cons, List.sum_nil]
    have := severityWeight_nonneg f.severity
    omega
  · intro fs hlen hsev
    rw [calculate_score_eq, sum_weights_critical fs hsev, hlen]
    norm_num

/-- C7 witness: the theorem applied to five concrete CRITICAL findings. -/
theorem c7_score_formula_witness :
    calculate_score (List.replicate 5 ⟨"CRITICAL", "t", "f", 1, []⟩) = 0 :=
  c7_score_formula.2.2.2.1 (List.replicate 5 ⟨"CRITICAL", "t", "f", 1, []⟩)
    (by decide) (by decide)

/-- C9: each `detect` method, modelled as a state transformer over the
instance's `self.findings` accumulator, returns a value independent of
the incoming state (the accumulator is reset to `[]` at entry), so two
calls with equal arguments return equal finding lists — on any two
instance states, and in particular after an interleaved call on
different input. -/
theorem c9_detect_deterministic :
    (∀ st st2 cs src fp,
      (reentrancyDetectRun st cs src fp).1 = (reentrancyDetectRun st2 cs src fp).1 ∧
      (validationDetectRun st cs src fp).1 = (validationDetectRun st2 cs src fp).1 ∧
      (badPatternsDetectRun st cs src fp).1 = (badPatternsDetectRun st2 cs src fp).1 ∧
      (insecureCallsDetectRun st cs src fp).1 = (insecureCallsDetectRun st2 cs src fp).1) ∧
    (∀ st cs src fp cs2 src2 fp2,
      (reentrancyDetectRun ((reentrancyDetectRun st cs2 src2 fp2).2) cs src fp).1 =
        (reentrancyDetectRun st cs src fp).1 ∧
      (validationDetectRun ((validationDetectRun st cs2 src2 fp2).2) cs src fp).1 =
        (validationDetectRun st cs src fp).1 ∧
      (badPatternsDetectRun ((badPatternsDetectRun st cs2 src2 fp2).2) cs src fp).1 =
        (badPatternsDetectRun st cs src fp).1 ∧
      (insecureCallsDetectRun ((insecureCallsDetectRun st cs2 src2 fp2).2) cs src fp).1 =
        (insecureCallsDetectRun st cs src fp).1) := by
  constructor
  · intro st st2 cs src fp
    refine ⟨rfl, rfl, rfl, rfl⟩
  · intro st cs src fp cs2 src2 fp2
    refine ⟨rfl, rfl, rfl, rfl⟩

/-- C2: per non-view/pure function, the CEI check (i) emits nothing when
either the call-offset set or the write-offset set is empty, (ii) emits
exactly one finding per call offset that has some write offset greater
than it (the write list, scanned in declaration order, is abandoned at
the first hit), (iii) every emitted finding is CRITICAL, carries the
code's title "Reentrancy Vulnerability: External Call Before State
Update" (whose suffix is the spec's short name "External Call Before
State Update"), and sits at the call's line; and on the spec's concrete
example exactly one such finding is emitted, while the swapped variant
(write before call) yields zero. -/
theorem c2_cei_first_write_after_call :
    (∀ (func : FunctionNode) (c : ContractInfo) (fp : String),
      (ceiCallPositions func.body = [] ∨
        writePositions (c.state_variables.map (fun v => v.name)) func.body = []) →
      checkCeiViolation func c fp = []) ∧
    (∀ (func : FunctionNode) (c : ContractInfo) (fp : String),
      (checkCeiViolation func c fp).length =
        ((ceiCallPositions func.body).filter (fun cp =>
          (writePositions (c.state_variables.map (fun v => v.name)) func.body).any
            (fun vw => cp < vw.2))).length) ∧
    (∀ (func : FunctionNode) (c : ContractInfo) (fp : String) (fnd : Finding),
      fnd ∈ checkCeiViolation func c fp →
      fnd.severity = "CRITICAL" ∧
      fnd.title = "Reentrancy Vulnerability: External Call Before State Update" ∧
      ∃ cp ∈ ceiCallPositions func.body,
        ((writePositions (c.state_variables.map (fun v => v.name)) func.body).find?
          (fun vw => cp < vw.2)).isSome = true ∧
        fnd.line_number = func.line_start + (func.body.take cp).count '\n') ∧
    ((reentrancyDetect (parse srcCei) srcCei "t.sol").filter
      (fun f => f.severity = "CRITICAL" &&
        f.title = "Reentrancy Vulnerability: External Call Before State Update")).length
      = 1 ∧
    ((reentrancyDetect (parse srcCeiSwapped) srcCeiSwapped "t.sol").filter
      (fun f =>
        f.title = "Reentrancy Vulnerability: External Call Before State Update")).length
      = 0 := by
  refine ⟨?_, ?_, ?_, by decide, by decide⟩
  · intro func c fp h
    simp only [checkCeiViolation]
    split_ifs with h1
    all_goals rfl
  · intro func c fp
    simp only [checkCeiViolation]
    split_ifs with h1 h2
    · simp [h1, writePositions]
    · rcases h2 with h2 | h2
      · simp [h2]
      · simp [h2]
    · apply length_flatMap_count
      intro cp _
      cases hf : (writePositions (c.state_variables.map (fun v => v.name))
          func.body).find? (fun vw => cp < vw.2) with
      | none =>
        have hany : (writePositions (c.state_variables.map (fun v => v.name))
            func.body).any (fun vw => cp < vw.2) = false := by
          rw [← find?_isSome_eq_any, hf]
          rfl
        simp [hf, hany]
      | some vw =>
        have hany : (writePositions (c.state_variables.map (fun v => v.name))
            func.body).any (fun vw => cp < vw.2) = true := by
          rw [← find?_isSome_eq_any, hf]
          rfl
        simp [hf, hany]
  · intro func c fp fnd h
    obtain ⟨h1, h2, _, _, hex⟩ := mem_checkCeiViolation h
    exact ⟨h1, h2, hex⟩

/-- C2 witness: the first conjunct applied to a concrete function with
no external call in its body. -/
theorem c2_cei_first_write_after_call_witness :
    checkCeiViolation ⟨"w".data, "public", false, false, false, [], 1, 1, "x = 1;".data⟩
      ⟨"C".data, [], [⟨"x".data, "uint".data, "internal", 1⟩], [], 1, 1⟩ "t.sol" = [] :=
  c2_cei_first_write_after_call.1
    ⟨"w".data, "public", false, false, false, [], 1, 1, "x = 1;".data⟩
    ⟨"C".data, [], [⟨"x".data, "uint".data, "internal", 1⟩], [], 1, 1⟩ "t.sol"
    (Or.inl (by decide))

/-- C4: ReentrancyDetector runs only over non-view/non-pure functions
(contracts all of whose functions are view or pure yield no findings),
and per such function the HIGH "Missing Reentrancy Guard" finding is
emitted iff the body matches the external-call pattern, the function's
modifier list lacks `nonReentrant`, and the owning contract declares a
`nonReentrant` modifier. -/
theorem c4_missing_guard_iff :
    (∀ (cs : List ContractInfo) (src : List Char) (fp : String),
      (∀ c ∈ cs, ∀ f ∈ c.functions, (f.is_view || f.is_pure) = true) →
      reentrancyDetect cs src fp = []) ∧
    (∀ (cs : List ContractInfo) (src : List Char) (fp : String)
       (c : ContractInfo) (f : FunctionNode),
      c ∈ cs → f ∈ c.functions →
      f.is_view = false → f.is_pure = false →
      searchB extCallGuardM f.body = true →
      "nonReentrant".data ∉ f.modifiers →
      "nonReentrant".data ∈ c.modifiers →
      (⟨"HIGH", "Missing Reentrancy Guard", fp, f.line_start, f.name⟩ : Finding) ∈
        reentrancyDetect cs src fp) ∧
    (∀ (cs : List ContractInfo) (src : List Char) (fp : String) (fnd : Finding),
      fnd ∈ reentrancyDetect cs src fp →
      fnd.title = "Missing Reentrancy Guard" →
      ∃ c ∈ cs, ∃ f ∈ c.functions,
        f.is_view = false ∧ f.is_pure = false ∧
        searchB extCallGuardM f.body = true ∧
        "nonReentrant".data ∉ f.modifiers ∧
        "nonReentrant".data ∈ c.modifiers ∧
        fnd = ⟨"HIGH", "Missing Reentrancy Guard", fp, f.line_start, f.name⟩) := by
  refine ⟨?_, ?_, ?_⟩
  · intro cs src fp hall
    rw [List.eq_nil_iff_forall_not_mem]
    intro fnd hmem
    unfold reentrancyDetect at hmem
    rw [List.mem_flatMap] at hmem
    obtain ⟨c, hc, hmem⟩ := hmem
    rw [List.mem_flatMap] at hmem
    obtain ⟨f, hf, hmem⟩ := hmem
    rw [hall c hc f hf] at hmem
    simp at hmem
  · intro cs src fp c f hc hf hview hpure hcall hmod hcmod
    unfold reentrancyDetect
    rw [List.mem_flatMap]
    refine ⟨c, hc, ?_⟩
    rw [List.mem_flatMap]
    refine ⟨f, hf, ?_⟩
    have hg : (⟨"HIGH", "Missing Reentrancy Guard", fp, f.line_start, f.name⟩ : Finding) ∈
        checkMissingGuard f c fp :=
      mem_checkMissingGuard.mpr ⟨hcall, hmod, hcmod, rfl⟩
    rw [hview, hpure]
    simp only [Bool.or_self, Bool.false_eq_true, if_false, reentrancyFuncFindings,
      List.append_assoc, List.mem_append]
    exact Or.inl hg
  · intro cs src fp fnd hmem htitle
    unfold reentrancyDetect at hmem
    rw [List.mem_flatMap] at hmem
    obtain ⟨c, hc, hmem⟩ := hmem
    rw [List.mem_flatMap] at hmem
    obtain ⟨f, hf, hmem⟩ := hmem
    by_cases hvp : (f.is_view || f.is_pure) = true
    · rw [if_pos hvp] at hmem
      simp at hmem
    · rw [if_neg hvp] at hmem
      rw [Bool.or_eq_true, not_or] at hvp
      obtain ⟨hv, hp⟩ := hvp
      rw [Bool.not_eq_true] at hv hp
      unfold reentrancyFuncFindings at hmem
      rcases List.mem_append.mp hmem with hmem' | hfall
      · rcases List.mem_append.mp hmem' with hmem'' | hdep
        · rcases List.mem_append.mp hmem'' with hguard | hcei
          · obtain ⟨h1, h2, h3, rfl⟩ := mem_checkMissingGuard.mp hguard
            exact ⟨c, hc, f, hf, hv, hp, h1, h2, h3, rfl⟩
          · obtain ⟨_, ht, _⟩ := mem_checkCeiViolation hcei
            rw [ht] at htitle
            exact absurd htitle (by decide)
        · obtain ⟨_, ht, _⟩ := mem_checkDeprecatedCalls hdep
          rcases ht with ht | ht | ht <;> rw [ht] at htitle <;>
            exact absurd htitle (by decide)
      · have heq := mem_checkFallbackVectors hfall
        rw [heq] at htitle
        have htitle' : ("Potential Reentrancy via Fallback" : String) =
            "Missing Reentrancy Guard" := htitle
        exact absurd htitle' (by decide)

/-- C4 witness: the second conjunct applied to a concrete contract that
declares `nonReentrant` and a concrete unguarded function making an
external call. -/
theorem c4_missing_guard_iff_witness :
    (⟨"HIGH", "Missing Reentrancy Guard", "t.sol", 2,
      "w".data⟩ : Finding) ∈
      reentrancyDetect
        [⟨"C".data,
          [⟨"w".data, "public", false, false, false, [], 2, 4, "a.call(x);".data⟩],
          [], ["nonReentrant".data], 1, 5⟩] [] "t.sol" :=
  c4_missing_guard_iff.2.1
    [⟨"C".data,
      [⟨"w".data, "public", false, false, false, [], 2, 4, "a.call(x);".data⟩],
      [], ["nonReentrant".data], 1, 5⟩] [] "t.sol"
    ⟨"C".data,
      [⟨"w".data, "public", false, false, false, [], 2, 4, "a.call(x);".data⟩],
      [], ["nonReentrant".data], 1, 5⟩
    ⟨"w".data, "public", false, false, false, [], 2, 4, "a.call(x);".data⟩
    (by simp) (by simp) rfl rfl (by decide) (by decide) (by decide)

/-- C3: the parser is a total function of its input (the Lean embedding
of `parse` needs no exception path because every operation the Python
body performs is total at runtime, so the `try/except` wrapper never
fires and `parse` never raises); every contract it records has a brace
scan that closed (`braceEnd?` succeeded at its span), so a construct
whose depth never returns to zero is not recorded; and on a concrete
source whose first contract construct never closes, the scan continues
from the next line and returns the later, closed contract as a partial
result. -/
theorem c3_parse_total_partial :
    (∀ (source : List Char) (c : ContractInfo), c ∈ parse source →
      braceEnd? ((splitLines source).drop (c.line_start - 1)) c.line_start =
        some c.line_end) ∧
    (parse srcUnterminated).map (fun c => (c.name, c.line_start, c.line_end)) =
      [("B".data, 2, 2)] := by
  constructor
  · intro source c hc
    simp only [parse] at hc
    rw [List.mem_map] at hc
    obtain ⟨c0, hc0, heq⟩ := hc
    unfold extractContracts at hc0
    rw [List.mem_filterMap] at hc0
    obtain ⟨kl, _, h0⟩ := hc0
    split at h0
    · split at h0
      · simp only [Option.some.injEq] at h0
        subst h0
        subst heq
        simpa using by assumption
      · simp at h0
    · simp at h0
  · decide

/-- C3 witness: the first conjunct applied to the contract recorded from
`srcUnterminated`. -/
theorem c3_parse_total_partial_witness :
    braceEnd? ((splitLines srcUnterminated).drop 1) 2 = some 2 :=
  c3_parse_total_partial.1 srcUnterminated ⟨"B".data, [], [], [], 2, 2⟩ (by decide)

/-- C5 amended: the finding is emitted iff the function is
non-view/non-pure, its body matches the parameter pattern, its RAW body
(comments not stripped) contains an assignment or an external-call
pattern, and the comment-stripped body has no
require/revert/assert-then-`(` occurrence — the comment stripping
applies only to the validation test, not to the assignment test. -/
theorem c5_missing_validation_iff :
    (∀ (cs : List ContractInfo) (src : List Char) (fp : String)
       (c : ContractInfo) (f : FunctionNode),
      c ∈ cs → f ∈ c.functions →
      f.is_view = false → f.is_pure = false →
      searchB hasParamsM f.body = true →
      (hasAssign f.body || searchB callSendTransferM f.body) = true →
      searchB validationCallM (stripComments f.body) = false →
      (⟨"MEDIUM", "Missing Input Validation", fp, f.line_start, f.name⟩ : Finding) ∈
        validationDetect cs src fp) ∧
    (∀ (cs : List ContractInfo) (src : List Char) (fp : String) (fnd : Finding),
      fnd ∈ validationDetect cs src fp →
      fnd.title = "Missing Input Validation" →
      ∃ c ∈ cs, ∃ f ∈ c.functions,
        f.is_view = false ∧ f.is_pure = false ∧
        searchB hasParamsM f.body = true ∧
        (hasAssign f.body || searchB callSendTransferM f.body) = true ∧
        searchB validationCallM (stripComments f.body) = false ∧
        fnd = ⟨"MEDIUM", "Missing Input Validation", fp, f.line_start, f.name⟩) := by
  constructor
  · intro cs src fp c f hc hf hv hp hparams hchange hvalid
    unfold validationDetect
    rw [List.mem_append]
    left
    rw [List.mem_flatMap]
    refine ⟨c, hc, ?_⟩
    rw [List.mem_flatMap]
    refine ⟨f, hf, ?_⟩
    rw [List.mem_append]
    exact Or.inl (mem_checkMissingValidation.mpr ⟨hv, hp, hparams, hchange, hvalid, rfl⟩)
  · intro cs src fp fnd hmem htitle
    unfold validationDetect at hmem
    rcases List.mem_append.mp hmem with hmem | hhard
    · rw [List.mem_flatMap] at hmem
      obtain ⟨c, hc, hmem⟩ := hmem
      rw [List.mem_flatMap] at hmem
      obtain ⟨f, hf, hmem⟩ := hmem
      rcases List.mem_append.mp hmem with hmv | hua
      · obtain ⟨h1, h2, h3, h4, h5, rfl⟩ := mem_checkMissingValidation.mp hmv
        exact ⟨c, hc, f, hf, h1, h2, h3, h4, h5, rfl⟩
      · obtain ⟨_, ht, _⟩ := mem_checkUnsafeArithmetic hua
        rcases ht with ht | ht | ht <;> rw [ht] at htitle <;>
          exact absurd htitle (by decide)
    · obtain ⟨_, ht, _⟩ := mem_checkHardcodedAddresses hhard
      rw [ht] at htitle
      exact absurd htitle (by decide)

/-- C5 witness: the first conjunct applied to a concrete unvalidated
state-changing function with a parameter. -/
theorem c5_missing_validation_iff_witness :
    (⟨"MEDIUM", "Missing Input Validation", "t.sol", 2, "setX".data⟩ : Finding) ∈
      validationDetect
        [⟨"T".data,
          [⟨"setX".data, "public", false, false, false, [], 2, 4,
            "function setX(uint256 v) public \x7b x = v; \x7d".data⟩],
          [], [], 1, 5⟩] [] "t.sol" :=
  c5_missing_validation_iff.1
    [⟨"T".data,
      [⟨"setX".data, "public", false, false, false, [], 2, 4,
        "function setX(uint256 v) public \x7b x = v; \x7d".data⟩],
      [], [], 1, 5⟩] [] "t.sol"
    ⟨"T".data,
      [⟨"setX".data, "public", false, false, false, [], 2, 4,
        "function setX(uint256 v) public \x7b x = v; \x7d".data⟩],
      [], [], 1, 5⟩
    ⟨"setX".data, "public", false, false, false, [], 2, 4,
      "function setX(uint256 v) public \x7b x = v; \x7d".data⟩
    (by simp) (by simp) rfl rfl (by decide) (by decide) (by decide)

/-- C6 amended: per function, a `.delegatecall(` match yields exactly
one delegatecall finding, CRITICAL when the body also references
`msg.data`, `msg.sender` or `abi.decode` and HIGH otherwise, located at
the function's signature line (`func.line_start`), not at the first
match location; no match yields no delegatecall finding. -/
theorem c6_delegatecall_per_function :
    (∀ (f : FunctionNode) (fp : String),
      searchB delegatecallParenM f.body = false → checkDelegatecall f fp = []) ∧
    (∀ (f : FunctionNode) (fp : String),
      searchB delegatecallParenM f.body = true →
      checkDelegatecall f fp =
        [⟨if containsAny ["msg.data".data, "msg.sender".data, "abi.decode".data]
             f.body then "CRITICAL" else "HIGH",
          "Unsafe delegatecall Usage", fp, f.line_start, f.name⟩]) ∧
    (∀ (cs : List ContractInfo) (src : List Char) (fp : String) (fnd : Finding),
      fnd ∈ insecureCallsDetect cs src fp →
      fnd.title = "Unsafe delegatecall Usage" →
      ∃ c ∈ cs, ∃ f ∈ c.functions,
        searchB delegatecallParenM f.body = true ∧
        fnd.line_number = f.line_start ∧
        fnd.severity =
          (if containsAny ["msg.data".data, "msg.sender".data, "abi.decode".data]
             f.body then "CRITICAL" else "HIGH")) := by
  refine ⟨?_, ?_, ?_⟩
  · intro f fp h
    unfold checkDelegatecall
    rw [if_neg]
    rw [h]
    simp
  · intro f fp h
    unfold checkDelegatecall
    rw [if_pos h]
  · intro cs src fp fnd hmem htitle
    unfold insecureCallsDetect at hmem
    rw [List.mem_flatMap] at hmem
    obtain ⟨c, hc, hmem⟩ := hmem
    rw [List.mem_flatMap] at hmem
    obtain ⟨f, hf, hmem⟩ := hmem
    rcases List.mem_append.mp hmem with hdel | hunc
    · obtain ⟨h1, rfl⟩ := mem_checkDelegatecall.mp hdel
      exact ⟨c, hc, f, hf, h1, rfl, rfl⟩
    · obtain ⟨_, ht, _⟩ := mem_checkUncheckedReturns hunc
      rw [ht] at htitle
      exact absurd htitle (by decide)

/-- C6 witness: the second conjunct applied to a concrete function
using delegatecall without user-controlled input. -/
theorem c6_delegatecall_per_function_witness :
    checkDelegatecall
      ⟨"run".data, "public", false, false, false, [], 2, 4,
        "a.delegatecall(d);".data⟩ "t.sol" =
      [⟨"HIGH", "Unsafe delegatecall Usage", "t.sol", 2, "run".data⟩] := by
  have h := c6_delegatecall_per_function.2.1
    ⟨"run".data, "public", false, false, false, [], 2, 4,
      "a.delegatecall(d);".data⟩ "t.sol" (by decide)
  rw [h]
  decide

/-- C10 amended: the parser sets `is_view`/`is_pure`/`is_payable` by
case-sensitive raw substring containment on the whole signature line
(so e.g. a function named `previewCount` has `is_view` set, while
`updateViewCount` — capital `V` — does not), and a function with either
flag set is excluded from every ReentrancyDetector check and from
ValidationDetector's missing-validation check. -/
theorem c10_flags_by_substring :
    (∀ (lines : List (List Char)) (c : ContractInfo) (f : FunctionNode),
      f ∈ extractFunctions lines c →
      ∃ kl ∈ (contractSlice lines c).enum,
        f.is_view = containsSub "view".data kl.2 ∧
        f.is_pure = containsSub "pure".data kl.2 ∧
        f.is_payable = containsSub "payable".data kl.2) ∧
    (∀ (f : FunctionNode) (fp : String), (f.is_view || f.is_pure) = true →
      checkMissingValidation f fp = []) ∧
    (∀ (cs : List ContractInfo) (src : List Char) (fp : String) (fnd : Finding),
      fnd ∈ reentrancyDetect cs src fp →
      ∃ c ∈ cs, ∃ f ∈ c.functions, f.is_view = false ∧ f.is_pure = false ∧
        fnd ∈ reentrancyFuncFindings c f fp) ∧
    (extractFunctionProperties
      "    function previewCount(uint256 n) public \x7b".data).2.2.1 = true ∧
    (extractFunctionProperties
      "    function updateViewCount(uint256 n) public \x7b".data).2.2.1 = false := by
  refine ⟨?_, ?_, ?_, by decide, by decide⟩
  · intro lines c f hf
    unfold extractFunctions at hf
    rw [List.mem_filterMap] at hf
    obtain ⟨kl, hkl, h0⟩ := hf
    split at h0
    · split at h0
      · simp at h0
      · split at h0
        · simp only [Option.some.injEq] at h0
          subst h0
          exact ⟨kl, hkl, by simp [extractFunctionProperties], by
            simp [extractFunctionProperties], by simp [extractFunctionProperties]⟩
        · simp at h0
    · simp at h0
  · intro f fp h
    unfold checkMissingValidation
    rw [if_pos h]
  · intro cs src fp fnd hmem
    unfold reentrancyDetect at hmem
    rw [List.mem_flatMap] at hmem
    obtain ⟨c, hc, hmem⟩ := hmem
    rw [List.mem_flatMap] at hmem
    obtain ⟨f, hf, hmem⟩ := hmem
    by_cases hvp : (f.is_view || f.is_pure) = true
    · rw [if_pos hvp] at hmem
      simp at hmem
    · rw [if_neg hvp] at hmem
      rw [Bool.or_eq_true, not_or, Bool.not_eq_true, Bool.not_eq_true] at hvp
      exact ⟨c, hc, f, hf, hvp.1, hvp.2, hmem⟩

/-- C10 witness: the exclusion conjunct applied to a concrete function
whose signature contained `view` as part of another identifier. -/
theorem c10_flags_by_substring_witness :
    checkMissingValidation
      ⟨"previewCount".data, "public", false, true, false, [], 1, 3,
        "function previewCount(uint256 n) public \x7b x = n; \x7d".data⟩ "t.sol" = [] :=
  c10_flags_by_substring.2.1
    ⟨"previewCount".data, "public", false, true, false, [], 1, 3,
      "function previewCount(uint256 n) public \x7b x = n; \x7d".data⟩ "t.sol" rfl

/-- C5 counterexample: for the function of `srcCommentAssign`, whose
only `=` sits inside a `//` comment, the comment-stripped body contains
neither an assignment nor an external-call pattern, yet the code emits
the "Missing Input Validation" finding — the claim's comment-stripped
reading of the assignment condition is false (the code evaluates
`has_state_change` on the raw body). -/
theorem c5_counterexample :
    ((validationDetect (parse srcCommentAssign) srcCommentAssign "t.sol").filter
      (fun f => f.title = "Missing Input Validation")).length = 1 ∧
    (parse srcCommentAssign).all (fun c => c.functions.all (fun f =>
      !(hasAssign (stripComments f.body) ||
        searchB callSendTransferM (stripComments f.body)) &&
      !f.is_view && !f.is_pure && searchB hasParamsM f.body &&
      !searchB validationCallM (stripComments f.body))) = true := by
  refine ⟨by decide, by decide⟩

/-- C6 counterexample: for `srcDelegate` the single delegatecall finding
carries `line_number = 2` (the function's signature line), while the
first `.delegatecall(` match is at body offset 42, i.e. source line 3 —
the claim's "located at the first match location" is false. -/
theorem c6_counterexample :
    ((insecureCallsDetect (parse srcDelegate) srcDelegate "t.sol").filter
      (fun f => f.title = "Unsafe delegatecall Usage")).map
        (fun f => f.line_number) = [2] ∧
    (parse srcDelegate).all (fun c => c.functions.all (fun f =>
      ((findAll delegatecallParenM f.body).head?.map
        (fun p => f.line_start + (f.body.take p).count '\n')) = some 3)) = true := by
  refine ⟨by decide, by decide⟩

/-- C10 counterexample: the claim presents `updateViewCount` as a
function whose `view` flag is set by substring containment, excluded
from every ReentrancyDetector check and from the missing-validation
check.  The containment test `"view" in line` is case sensitive, so the
parsed function has `is_view = false`, `is_pure = false`, and both a
reentrancy finding and a "Missing Input Validation" finding are emitted
for it. -/
theorem c10_counterexample :
    ((parse srcUpdateView).map (fun c =>
      c.functions.map (fun f => (f.name, f.is_view, f.is_pure))) =
      [[("updateViewCount".data, false, false)]]) ∧
    ((reentrancyDetect (parse srcUpdateView) srcUpdateView "t.sol").filter
      (fun f => f.function_name = "updateViewCount".data)).length = 1 ∧
    ((validationDetect (parse srcUpdateView) srcUpdateView "t.sol").filter
      (fun f => f.title = "Missing Input Validation" &&
        f.function_name = "updateViewCount".data)).length = 1 := by
  refine ⟨by decide, by decide, by decide⟩

/-- C8: every finding any of the four detectors emits for a source
document and its parsed model has one of the five enum severities, and a
1-based line number that names an existing line of the document. -/
theorem c8_findings_wellformed :
    ∀ (source : List Char) (fp : String) (fnd : Finding),
      fnd ∈ scanFindings source fp →
      (fnd.severity = "CRITICAL" ∨ fnd.severity = "HIGH" ∨
        fnd.severity = "MEDIUM" ∨ fnd.severity = "LOW" ∨
        fnd.severity = "INFO") ∧
      1 ≤ fnd.line_number ∧ fnd.line_number ≤ (splitLines source).length := by
  intro source fp fnd hmem
  have hb : ∀ c ∈ parse source, ∀ f ∈ c.functions, 1 ≤ f.line_start ∧
      f.line_start + f.body.count '\n' ≤ (splitLines source).length :=
    fun c hc => (parse_bounds source c hc).2
  simp only [scanFindings] at hmem
  rcases List.mem_append.mp hmem with h1 | h4
  · rcases List.mem_append.mp h1 with h2 | h3
    · rcases List.mem_append.mp h2 with ha | hv
      · exact reentrancyDetect_ok hb fnd ha
      · exact validationDetect_ok hb fnd hv
    · exact badPatternsDetect_ok hb fnd h3
  · exact insecureCallsDetect_ok hb fnd h4

/-- C8 witness: the theorem applied to the tx.origin finding produced on
a one-line source. -/
theorem c8_findings_wellformed_witness :
    ((⟨"HIGH", "Use of tx.origin", "t.sol", 1, []⟩ : Finding).severity = "CRITICAL" ∨
      (⟨"HIGH", "Use of tx.origin", "t.sol", 1, []⟩ : Finding).severity = "HIGH" ∨
      (⟨"HIGH", "Use of tx.origin", "t.sol", 1, []⟩ : Finding).severity = "MEDIUM" ∨
      (⟨"HIGH", "Use of tx.origin", "t.sol", 1, []⟩ : Finding).severity = "LOW" ∨
      (⟨"HIGH", "Use of tx.origin", "t.sol", 1, []⟩ : Finding).severity = "INFO") ∧
    1 ≤ (⟨"HIGH", "Use of tx.origin", "t.sol", 1, []⟩ : Finding).line_number ∧
    (⟨"HIGH", "Use of tx.origin", "t.sol", 1, []⟩ : Finding).line_number ≤
      (splitLines "x = tx.origin;".data).length :=
  c8_findings_wellformed "x = tx.origin;".data "t.sol"
    ⟨"HIGH", "Use of tx.origin", "t.sol", 1, []⟩ (by decide)

end SCRVS
